import Mathlib

/-!
# Verification of the Bindu A2A server against its specification

Shallow embedding of the gRPC surface adapters of the Bindu repository:
the JSON-RPC → gRPC error mapping and SSE parsing (`bindu/server/grpc/servicer.py`),
the auth interceptor (`bindu/server/grpc/auth.py`), the Pydantic ↔ protobuf
converters (`bindu/server/grpc/converters.py`), the DID request-signature
utilities (`bindu/utils/did_signature.py`) and the schema-name derivation
(`bindu/utils/schema_manager.py`, modelled from the spec).

Python strings are modelled as Lean `String`/`List Char`; Python dicts as
insertion-ordered association lists; optional dict keys as `Option`;
raising code as `Option`-valued functions.  Machine-level concerns
(UTF-8 byte layout, unicode case folding beyond ASCII) do not arise for
the values these claims quantify over and are noted where a definition
restricts to ASCII behaviour.
-/

namespace Bindu

/-- Python `dict[str, str]`, modelled as an insertion-ordered association
list (Python dicts preserve insertion order; keys are unique in any dict
produced by Python, duplicates never arise in the values we quantify over). -/
abbrev StrMap := List (String × String)

/-- Python `uuid.UUID`: a 128-bit integer.  The bound `val < 2^128` is carried
as a hypothesis where needed. -/
structure PyUUID where
  val : Nat
deriving DecidableEq, Repr

/-- `UUID(int=0)`, the zero-valued id used by the converters as the fallback
for empty or unparseable textual ids. -/
def uuidZero : PyUUID := ⟨0⟩

/-- Python `str.lower()` restricted to ASCII (the keys and schemes compared in
the source are ASCII literals such as `"authorization"` and `"bearer"`). -/
def strLower (s : String) : String := ⟨s.data.map Char.toLower⟩

/-- Python `needle in haystack` substring test (`str.__contains__`). -/
def containsSub (haystack needle : String) : Bool :=
  haystack.data.tails.any (fun t => needle.data.isPrefixOf t)

/-! ### Hexadecimal digits and the UUID textual codec

`converters.uuid_to_str` is `str(uuid)`, i.e. the canonical lowercase
36-character form `xxxxxxxx-xxxx-xxxx-xxxx-xxxxxxxxxxxx`.
`converters.str_to_uuid` funnels through `uuid.UUID(hex)`, whose CPython
implementation strips `urn:` / `uuid:` prefixes and `{}` braces, removes
hyphens, and requires exactly 32 hexadecimal digits. -/

/-- Lowercase hexadecimal digit for a value `< 16`. -/
def hexChar (n : Nat) : Char :=
  if n = 0 then '0' else if n = 1 then '1' else if n = 2 then '2'
  else if n = 3 then '3' else if n = 4 then '4' else if n = 5 then '5'
  else if n = 6 then '6' else if n = 7 then '7' else if n = 8 then '8'
  else if n = 9 then '9' else if n = 10 then 'a' else if n = 11 then 'b'
  else if n = 12 then 'c' else if n = 13 then 'd' else if n = 14 then 'e'
  else 'f'

/-- Value of a hexadecimal digit character (`int(_, 16)` accepts both cases). -/
def hexVal (c : Char) : Option Nat :=
  if c = '0' then some 0 else if c = '1' then some 1 else if c = '2' then some 2
  else if c = '3' then some 3 else if c = '4' then some 4 else if c = '5' then some 5
  else if c = '6' then some 6 else if c = '7' then some 7 else if c = '8' then some 8
  else if c = '9' then some 9 else if c = 'a' ∨ c = 'A' then some 10
  else if c = 'b' ∨ c = 'B' then some 11 else if c = 'c' ∨ c = 'C' then some 12
  else if c = 'd' ∨ c = 'D' then some 13 else if c = 'e' ∨ c = 'E' then some 14
  else if c = 'f' ∨ c = 'F' then some 15 else none

/-- Fixed-width lowercase hexadecimal rendering (`'%0kx' % n`), big-endian. -/
def toHexFixed : Nat → Nat → List Char
  | 0, _ => []
  | k + 1, n => toHexFixed k (n / 16) ++ [hexChar (n % 16)]

/-- Numeric value of a list of hex digit characters (all assumed valid);
`int(hex, 16)` on a string of plain hex digits. -/
def parseHexList (l : List Char) : Nat :=
  l.foldl (fun a c => 16 * a + ((hexVal c).getD 0)) 0

/-- Fuel-driven worker for `replaceAll` (structural recursion on the fuel so
that concrete inputs evaluate inside the kernel; `fuel = l.length` always
suffices because each step consumes at least one character). -/
def replaceAllFuel (pat rep : List Char) : Nat → List Char → List Char
  | _, [] => []
  | 0, l => l
  | fuel + 1, c :: rest =>
    if pat.isPrefixOf (c :: rest) ∧ pat ≠ [] then
      rep ++ replaceAllFuel pat rep fuel ((c :: rest).drop pat.length)
    else
      c :: replaceAllFuel pat rep fuel rest

/-- Python `str.replace(pat, rep)`: replace every (leftmost, non-overlapping)
occurrence.  Only called with non-empty patterns in the source. -/
def replaceAll (pat rep : List Char) (l : List Char) : List Char :=
  replaceAllFuel pat rep l.length l

/-- Python `str.strip()` restricted to ASCII whitespace (the strings stripped
in the source are header values and SSE payloads). -/
def pyStrip (l : List Char) : List Char :=
  ((l.dropWhile Char.isWhitespace).reverse.dropWhile Char.isWhitespace).reverse

/-- Python `str.strip('{}')`: drop leading and trailing `{` / `}` characters. -/
def stripBraces (l : List Char) : List Char :=
  ((l.dropWhile (fun c => c = '{' ∨ c = '}')).reverse.dropWhile
    (fun c => c = '{' ∨ c = '}')).reverse

/-- Hyphenation of a 32-digit hex string into the 8-4-4-4-12 groups of the
canonical UUID form. -/
def uuidGroups (h : List Char) : List Char :=
  h.take 8 ++ '-' :: (h.drop 8).take 4 ++ '-' :: (h.drop 12).take 4 ++
    '-' :: (h.drop 16).take 4 ++ '-' :: h.drop 20

/-- Canonical 36-character textual form of a UUID (`str(uuid)`):
32 lowercase hex digits in 8-4-4-4-12 groups. -/
def uuidCanonicalChars (n : Nat) : List Char :=
  uuidGroups (toHexFixed 32 n)

/-- `converters.uuid_to_str`: `None → ""`, otherwise `str(uuid_value)`.
(The `str` branch of the Python union is the identity and is not modelled
separately: a string argument is returned unchanged.) -/
def uuidToStr (u : Option PyUUID) : String :=
  match u with
  | none => ""
  | some u => ⟨uuidCanonicalChars u.val⟩

/-- `converters.str_to_uuid`: `None`/empty → `None`; otherwise
`uuid.UUID(s)`, which strips `urn:` / `uuid:` / braces / hyphens and
requires 32 hex digits; parse errors → `None`. -/
def strToUuid (s : String) : Option PyUUID :=
  if s.data = [] then none
  else
    let l := replaceAll "uuid:".data [] (replaceAll "urn:".data [] s.data)
    let l := replaceAll ['-'] [] (stripBraces l)
    if l.length = 32 ∧ l.all (fun c => (hexVal c).isSome) then
      some ⟨parseHexList l⟩
    else
      none

/-- The `str_to_uuid(x) or UUID(int=0)` idiom used by the proto decoders
(`proto_to_message`, `proto_to_task`, …).  A `uuid.UUID` object is always
truthy in Python, so this is exactly `getD uuidZero`. -/
def decodeId (s : String) : PyUUID :=
  (strToUuid s).getD uuidZero

/-! ## Schema name derivation (`bindu/utils/schema_manager.py`) -/

/-- Modelled from the spec: `sanitize_did_for_schema` is not under `src/`
(only its unit tests are).  Spec §6 Schema naming: lowercase the DID and
replace every non-alphanumeric character with `_`.  Alphanumeric is modelled
as ASCII (DIDs are ASCII strings of the form `did:bindu:...`). -/
def sanitizeBase (did : String) : List Char :=
  did.data.map (fun c => if c.toLower.isAlphanum then c.toLower else '_')

/-- Modelled from the spec: if the first character of the sanitized name is a
digit, prefix `schema_`. -/
def sanitizeNamed (did : String) : List Char :=
  let base := sanitizeBase did
  match base with
  | [] => base
  | c :: _ => if c.isDigit then "schema_".data ++ base else base

/-- Modelled from the spec: `sanitize_did_for_schema`, with the sha256 hex
digest modelled as the abstract parameter `hash8` (only its first 8
characters are used).  If the name exceeds 63 bytes, keep the first 54 bytes
and append `_` plus the first 8 hex digits of the digest of the full
original name. -/
def sanitize_did_for_schema (hash8 : String → String) (did : String) : String :=
  let named := sanitizeNamed did
  if 63 < named.length then
    ⟨named.take 54 ++ '_' :: (hash8 ⟨named⟩).data.take 8⟩
  else
    ⟨named⟩

/-! ## JSON-RPC → gRPC error mapping (`bindu/server/grpc/servicer.py`) -/

/-- `grpc.StatusCode` values used by the servicer and interceptor. -/
inductive StatusCode where
  | OK
  | INVALID_ARGUMENT
  | NOT_FOUND
  | FAILED_PRECONDITION
  | INTERNAL
  | UNAUTHENTICATED
deriving DecidableEq, Repr

/-- `A2AServicer._map_jsonrpc_error_to_status`: the JSON-RPC error dict is
read as `code = error.get("code")` (absent → `none`) and
`message = str(error.get("message", "")).lower()`; messages are strings in
every error the task manager produces, so `str` is the identity here. -/
def mapJsonRpcErrorToStatus (code : Option Int) (message : String) : StatusCode :=
  let msg := strLower message
  if containsSub msg "identifier mismatch" then .FAILED_PRECONDITION
  else if code = some (-32005) then .FAILED_PRECONDITION
  else if code = some (-32001) ∨ containsSub msg "not found" then .NOT_FOUND
  else .INVALID_ARGUMENT

/-! ## gRPC auth interceptor (`bindu/server/grpc/auth.py`) -/

/-- `auth._metadata_value`: first metadata entry whose key matches
case-insensitively.  Metadata values are modelled as strings (the bytes
branch decodes to a string). -/
def metadataValue (metadata : List (String × String)) (key : String) :
    Option String :=
  (metadata.find? (fun kv => strLower kv.1 == strLower key)).map (·.2)

/-- Python `str.split(" ", 1)`: split at the first space character, if any. -/
def splitFirstSpace (s : String) : Option (String × String) :=
  match s.data.findIdx? (· = ' ') with
  | none => none
  | some i => some (⟨s.data.take i⟩, ⟨s.data.drop (i + 1)⟩)

/-- `auth._extract_bearer_token`: empty/absent header → `none`; otherwise
strip, split on the first space into exactly two parts, require the scheme
to be `bearer` case-insensitively, and a non-empty stripped token. -/
def extractBearerToken (authorizationHeader : Option String) : Option String :=
  match authorizationHeader with
  | none => none
  | some h =>
    if h = "" then none
    else
      match splitFirstSpace ⟨pyStrip h.data⟩ with
      | none => none
      | some (scheme, rest) =>
        if strLower scheme = "bearer" then
          let token : String := ⟨pyStrip rest.data⟩
          if token = "" then none else some token
        else none

/-- Outcome of `GrpcAuthInterceptor.intercept_service`: either the original
handler is returned unchanged, or it is replaced by `_abort_handler`, whose
wrapped methods abort the call with the given status and details. -/
inductive InterceptResult where
  | proceed
  | abort (status : StatusCode) (details : String)
deriving DecidableEq, Repr

/-- Hydra introspection result: `introspection.get("active", False)` —
the `active` key is optional. -/
structure Introspection where
  active : Option Bool
deriving DecidableEq, Repr

/-- `HydraTokenValidator.validate_token`: propagate introspection failures;
raise (`.error`) when the introspection result is not active.
`.error ()` stands for any raised exception. -/
def hydraValidateToken (introspect : String → Except Unit Introspection)
    (token : String) : Except Unit Introspection := do
  let introspection ← introspect token
  if introspection.active.getD false then
    pure introspection
  else
    throw ()

/-- `GrpcAuthInterceptor.intercept_service` on a resolved handler:
extract the bearer token from the `authorization` metadata entry; missing
token → abort `UNAUTHENTICATED` "Missing authorization token"; validator
raising → abort `UNAUTHENTICATED` "Invalid authorization token"; otherwise
the handler passes through unchanged. -/
def interceptService {α : Type} (validate : String → Except Unit α)
    (metadata : List (String × String)) : InterceptResult :=
  match extractBearerToken (metadataValue metadata "authorization") with
  | none => .abort .UNAUTHENTICATED "Missing authorization token"
  | some token =>
    match validate token with
    | .error _ => .abort .UNAUTHENTICATED "Invalid authorization token"
    | .ok _ => .proceed


/-! ## Pydantic ↔ protobuf converters (`bindu/server/grpc/converters.py`)

The Pydantic protocol types (`bindu/common/protocol/types.py`) and the
protobuf schema (`proto/a2a.proto` / generated `a2a_pb2`) are not under
`src/`; their shapes are modelled from the spec's data model (§3) and from
how `converters.py` reads and writes them.  TypedDict values are records
whose optional keys are `Option` fields; keys that are always present in the
values produced by the system (and that the converters read with a
`.get(key, default)` whose default the decoder re-fills) are modelled as
required fields. -/

/-- JSON values (the `data` of a data part, `authentication` structs).
Numbers are modelled as integers; float payloads pass through the JSON
codec unchanged, so nothing in these claims depends on float semantics.
Arrays and objects are represented as first-order cons chains
(`arrCons`/`objCons`), a bijective encoding of JSON lists that keeps
equality decidable by structural recursion. -/
inductive PyJson where
  | null
  | bool (b : Bool)
  | num (n : Int)
  | str (s : String)
  | arrNil
  | arrCons (hd : PyJson) (tl : PyJson)
  | objNil
  | objCons (key : String) (val : PyJson) (tl : PyJson)
deriving DecidableEq, Repr

/-- Python JSON object (`dict[str, Any]` with JSON values), insertion ordered. -/
abbrev JsonObj := List (String × PyJson)

/-- Python `a or b` for string-or-None values (`None` and `""` are falsy). -/
def pyOrStr (a : Option String) (b : String) : String :=
  match a with
  | none => b
  | some s => if s = "" then b else s

/-- The `file` dict of a `FilePart`: optional keys `uri`, `bytes`,
`mimeType`, `name` (spec §3: `file (uri|bytes + mime + filename)`). -/
structure FileDict where
  uri : Option String
  bytes : Option String
  mimeType : Option String
  name : Option String
deriving DecidableEq, Repr

/-- Pydantic `Part` (spec §3): tagged variant `text` / `file` / `data` with
optional `metadata`.  `FilePart` and `DataPart` extend `TextPart` in the
source, so they also carry a `text` key (the tests always pass `text: ""`).
Embedding values are modelled as exact scalars (`Rat`): protobuf repeated
doubles pass through unchanged. -/
inductive Part where
  | text (text : String) (metadata : Option StrMap) (embeddings : Option (List Rat))
  | file (text : String) (file : FileDict) (metadata : Option StrMap)
  | data (text : String) (data : JsonObj) (metadata : Option StrMap)
deriving DecidableEq, Repr

/-- Protobuf `TextPart`: scalar/`map`/`repeated` fields hold their default
(empty) values when unset. -/
structure ProtoTextPart where
  text : String
  metadata : StrMap
  embeddings : List Rat
deriving DecidableEq, Repr

/-- Protobuf `FilePart`. -/
structure ProtoFilePart where
  file_id : String
  mime_type : String
  filename : String
  metadata : StrMap
deriving DecidableEq, Repr

/-- Protobuf `DataPart`: `data` is JSON bytes; `json.dumps`/`json.loads`
round-trip on JSON-representable dicts is modelled by carrying the value. -/
structure ProtoDataPart where
  mime_type : String
  data : JsonObj
  metadata : StrMap
deriving DecidableEq, Repr

/-- Protobuf `Part`: a `oneof` over text/file/data; `unset` is the default
instance with no variant set (on which `proto_to_part` raises). -/
inductive ProtoPart where
  | text (t : ProtoTextPart)
  | file (f : ProtoFilePart)
  | data (d : ProtoDataPart)
  | unset
deriving DecidableEq, Repr

/-- String lookup inside a JSON object (`d.get(key, default)` where the
stored value is a string; non-string values would raise on the protobuf
string-field assignment and do not occur). -/
def jsonObjGetStr (d : JsonObj) (key dflt : String) : String :=
  match d.lookup key with
  | some (.str s) => s
  | _ => dflt

/-- `converters.part_to_proto`. -/
def part_to_proto : Part → ProtoPart
  | .text t md emb =>
    .text { text := t
            metadata := md.getD []
            embeddings := emb.getD [] }
  | .file _ f md =>
    .file { file_id := pyOrStr f.uri (f.bytes.getD "")
            mime_type := f.mimeType.getD ""
            filename := f.name.getD ""
            metadata := md.getD [] }
  | .data _ d md =>
    .data { mime_type := jsonObjGetStr d "mimeType" "application/json"
            data := d
            metadata := md.getD [] }

/-- `converters.proto_to_part`: decodes the set variant; `unset`
(no variant) raises `ValueError`, modelled as `none`. -/
def proto_to_part : ProtoPart → Option Part
  | .text t =>
    some (.text t.text
      (if t.metadata = [] then none else some t.metadata)
      (if t.embeddings = [] then none else some t.embeddings))
  | .file f =>
    some (.file ""
      { uri := some f.file_id
        bytes := none
        mimeType := some f.mime_type
        name := some f.filename }
      (if f.metadata = [] then none else some f.metadata))
  | .data d =>
    some (.data "" d.data
      (if d.metadata = [] then none else some d.metadata))
  | .unset => none

/-- Pydantic `Message` (spec §3).  The three ids, `kind` and `role` are
required in every message the system produces; `reference_task_ids` elements
are `UUID | None` (the decoder can produce `None` entries). -/
structure Message where
  message_id : PyUUID
  context_id : PyUUID
  task_id : PyUUID
  reference_task_ids : Option (List (Option PyUUID))
  kind : String
  role : String
  metadata : Option StrMap
  parts : Option (List Part)
  extensions : Option (List String)
deriving DecidableEq, Repr

/-- Protobuf `Message`. -/
structure ProtoMessage where
  message_id : String
  context_id : String
  task_id : String
  reference_task_ids : List String
  kind : String
  role : String
  metadata : StrMap
  parts : List ProtoPart
  extensions : List String
deriving DecidableEq, Repr

/-- `converters.message_to_proto`.  Metadata values are strings, so the
`str(k): str(v)` coercion is the identity. -/
def message_to_proto (m : Message) : ProtoMessage :=
  { message_id := uuidToStr (some m.message_id)
    context_id := uuidToStr (some m.context_id)
    task_id := uuidToStr (some m.task_id)
    reference_task_ids := (m.reference_task_ids.getD []).map uuidToStr
    kind := m.kind
    role := m.role
    metadata := m.metadata.getD []
    parts := (m.parts.getD []).map part_to_proto
    extensions := m.extensions.getD [] }

/-- `converters.proto_to_message`: ids decode via the `or UUID(int=0)`
idiom; `kind` is hard-coded; empty `role` falls back to `"user"`;
`reference_task_ids` keeps only non-empty strings but keeps unparseable
ones as `None`. -/
def proto_to_message (p : ProtoMessage) : Option Message := do
  let parts ← p.parts.mapM proto_to_part
  some
    { message_id := decodeId p.message_id
      context_id := decodeId p.context_id
      task_id := decodeId p.task_id
      kind := "message"
      parts := some parts
      role := if p.role = "" then "user" else p.role
      reference_task_ids :=
        if p.reference_task_ids = [] then none
        else some ((p.reference_task_ids.filter (· ≠ "")).map strToUuid)
      metadata := if p.metadata = [] then none else some p.metadata
      extensions := if p.extensions = [] then none else some p.extensions }

/-- Pydantic `TaskStatus` (spec §3): `state`, `timestamp`, optional
`message`. -/
structure TaskStatus where
  state : String
  timestamp : String
  message : Option Message
deriving DecidableEq, Repr

/-- Protobuf `TaskStatus`; the optional `message` field supports
`HasField`. -/
structure ProtoTaskStatus where
  state : String
  timestamp : String
  message : Option ProtoMessage
deriving DecidableEq, Repr

/-- Default (unset) protobuf `TaskStatus` sub-message. -/
def emptyProtoTaskStatus : ProtoTaskStatus :=
  { state := "", timestamp := "", message := none }

/-- `converters.task_status_to_proto` (message dicts are non-empty, so the
`status["message"]` truthiness test is presence). -/
def task_status_to_proto (st : TaskStatus) : ProtoTaskStatus :=
  { state := st.state
    timestamp := st.timestamp
    message := st.message.map message_to_proto }

/-- `converters.proto_to_task_status`: empty `state` falls back to
`"unknown"`, empty `timestamp` to the current time (`now`, passed
explicitly: the embedding is pure). -/
def proto_to_task_status (now : String) (p : ProtoTaskStatus) :
    Option TaskStatus := do
  let message ← match p.message with
    | none => some none
    | some pm => (proto_to_message pm).map some
  some
    { state := if p.state = "" then "unknown" else p.state
      timestamp := if p.timestamp = "" then now else p.timestamp
      message := message }

/-- Pydantic `Artifact` (spec §3). -/
structure Artifact where
  artifact_id : PyUUID
  name : Option String
  parts : Option (List Part)
  metadata : Option StrMap
deriving DecidableEq, Repr

/-- Protobuf `Artifact`. -/
structure ProtoArtifact where
  artifact_id : String
  name : String
  parts : List ProtoPart
  metadata : StrMap
deriving DecidableEq, Repr

/-- `converters.artifact_to_proto`. -/
def artifact_to_proto (a : Artifact) : ProtoArtifact :=
  { artifact_id := uuidToStr (some a.artifact_id)
    name := a.name.getD ""
    parts := (a.parts.getD []).map part_to_proto
    metadata := a.metadata.getD [] }

/-- `converters.proto_to_artifact`: the `name` key is always set (the
`name or ""` value, overwritten by `name` again when non-empty, is just the
proto `name`). -/
def proto_to_artifact (p : ProtoArtifact) : Option Artifact := do
  let parts ← p.parts.mapM proto_to_part
  some
    { artifact_id := decodeId p.artifact_id
      name := some p.name
      parts := some parts
      metadata := if p.metadata = [] then none else some p.metadata }

/-- Pydantic `Task` (spec §3). -/
structure Task where
  id : PyUUID
  context_id : PyUUID
  kind : String
  status : Option TaskStatus
  artifacts : Option (List Artifact)
  history : Option (List Message)
  metadata : Option StrMap
deriving DecidableEq, Repr

/-- Protobuf `Task`: `status` is a sub-message that reads as the default
instance when unset (`proto_to_task` reads it unconditionally). -/
structure ProtoTask where
  id : String
  context_id : String
  kind : String
  status : ProtoTaskStatus
  artifacts : List ProtoArtifact
  history : List ProtoMessage
  metadata : StrMap
deriving DecidableEq, Repr

/-- `converters.task_to_proto`. -/
def task_to_proto (t : Task) : ProtoTask :=
  { id := uuidToStr (some t.id)
    context_id := uuidToStr (some t.context_id)
    kind := t.kind
    status := match t.status with
      | some st => task_status_to_proto st
      | none => emptyProtoTaskStatus
    artifacts := (t.artifacts.getD []).map artifact_to_proto
    history := (t.history.getD []).map message_to_proto
    metadata := t.metadata.getD [] }

/-- `converters.proto_to_task`. -/
def proto_to_task (now : String) (p : ProtoTask) : Option Task := do
  let status ← proto_to_task_status now p.status
  let artifacts ← p.artifacts.mapM proto_to_artifact
  let history ← p.history.mapM proto_to_message
  some
    { id := decodeId p.id
      context_id := decodeId p.context_id
      kind := if p.kind = "" then "task" else p.kind
      status := some status
      artifacts := some artifacts
      history := some history
      metadata := if p.metadata = [] then none else some p.metadata }

/-- Pydantic `PushNotificationConfig` (spec §3). -/
structure PushNotificationConfig where
  id : Option PyUUID
  url : Option String
  token : Option String
  authentication : Option JsonObj
deriving DecidableEq, Repr

/-- Protobuf `PushNotificationConfig`; `authentication` is an optional
`Struct` sub-message (`HasField` + its `fields`). -/
structure ProtoPushNotificationConfig where
  id : String
  url : String
  token : String
  authentication : Option JsonObj
deriving DecidableEq, Repr

/-- `converters.push_notification_config_to_proto`
(`MessageToDict`/`ParseDict` on a `Struct` are mutually inverse and are
modelled by carrying the dict). -/
def push_notification_config_to_proto (c : PushNotificationConfig) :
    ProtoPushNotificationConfig :=
  { id := uuidToStr c.id
    url := c.url.getD ""
    token := c.token.getD ""
    authentication := c.authentication }

/-- `converters.proto_to_push_notification_config`: `token` only when
truthy; `authentication` only when the field is set and has entries. -/
def proto_to_push_notification_config (p : ProtoPushNotificationConfig) :
    PushNotificationConfig :=
  { id := some (decodeId p.id)
    url := some p.url
    token := if p.token = "" then none else some p.token
    authentication := match p.authentication with
      | some s => if s = [] then none else some s
      | none => none }

/-- Pydantic `TaskPushNotificationConfig` (spec §3). -/
structure TaskPushNotificationConfig where
  id : Option PyUUID
  push_notification_config : PushNotificationConfig
  long_running : Option Bool
deriving DecidableEq, Repr

/-- Protobuf `TaskPushNotificationConfig`; `long_running` is a plain bool
field (default `false`). -/
structure ProtoTaskPushNotificationConfig where
  id : String
  push_notification_config : ProtoPushNotificationConfig
  long_running : Bool
deriving DecidableEq, Repr

/-- `converters.task_push_notification_config_to_proto`: the bool field is
assigned only when the key is present and not `None`. -/
def task_push_notification_config_to_proto (c : TaskPushNotificationConfig) :
    ProtoTaskPushNotificationConfig :=
  { id := uuidToStr c.id
    push_notification_config :=
      push_notification_config_to_proto c.push_notification_config
    long_running := match c.long_running with
      | some b => b
      | none => false }

/-- `converters.proto_to_task_push_notification_config`: the `long_running`
key is set only when the proto field is truthy. -/
def proto_to_task_push_notification_config
    (p : ProtoTaskPushNotificationConfig) : TaskPushNotificationConfig :=
  { id := some (decodeId p.id)
    push_notification_config :=
      proto_to_push_notification_config p.push_notification_config
    long_running := if p.long_running then some true else none }

/-! ### Canonical domains of the converters

The decoders conflate some wire states (empty maps/lists are dropped, file
`bytes` re-encode under `uri`, empty strings fall back to defaults).  The
following predicates carve out the values on which the round-trip is the
identity; each condition is forced by a conflation in the source. -/

/-- Present-but-empty optional lists are dropped by the decoders
(`if proto.field:` truthiness), so the round-trip domain requires present
values to be non-empty. -/
def nonemptyOpt {α : Type} : Option (List α) → Bool
  | none => true
  | some l => !l.isEmpty

/-- The 128-bit bound of a Python UUID value. -/
def uuidOk (u : PyUUID) : Bool := decide (u.val < 2 ^ 128)

/-- Parts on which `proto_to_part ∘ part_to_proto` is the identity:
present metadata/embeddings non-empty; file parts carry `text = ""`, a
non-empty `uri`, no `bytes`, and present `mimeType`/`name`; data parts carry
`text = ""`. -/
def partCanonical : Part → Bool
  | .text _ md emb => nonemptyOpt md && nonemptyOpt emb
  | .file t f md =>
    (t == "") && (f.uri.getD "" != "") && f.bytes.isNone &&
      f.mimeType.isSome && f.name.isSome && nonemptyOpt md
  | .data t _ md => (t == "") && nonemptyOpt md

/-- Messages on which the round-trip is the identity: bounded ids,
`kind = "message"`, non-empty `role`, present parts (all canonical),
present reference ids non-empty and all parseable, present
metadata/extensions non-empty. -/
def messageCanonical (m : Message) : Bool :=
  uuidOk m.message_id && uuidOk m.context_id && uuidOk m.task_id &&
  (m.kind == "message") && (m.role != "") &&
  (match m.reference_task_ids with
   | none => true
   | some rs => !rs.isEmpty && rs.all (fun r => match r with
       | some u => uuidOk u
       | none => false)) &&
  (match m.parts with
   | none => false
   | some ps => ps.all partCanonical) &&
  nonemptyOpt m.metadata && nonemptyOpt m.extensions

/-- Task statuses on which the round-trip is the identity. -/
def statusCanonical (st : TaskStatus) : Bool :=
  (st.state != "") && (st.timestamp != "") &&
  (match st.message with
   | none => true
   | some m => messageCanonical m)

/-- Artifacts on which the round-trip is the identity. -/
def artifactCanonical (a : Artifact) : Bool :=
  uuidOk a.artifact_id && a.name.isSome &&
  (match a.parts with
   | none => false
   | some ps => ps.all partCanonical) &&
  nonemptyOpt a.metadata

/-- Tasks on which the round-trip is the identity. -/
def taskCanonical (t : Task) : Bool :=
  uuidOk t.id && uuidOk t.context_id && (t.kind != "") &&
  (match t.status with
   | none => false
   | some st => statusCanonical st) &&
  (match t.artifacts with
   | none => false
   | some l => l.all artifactCanonical) &&
  (match t.history with
   | none => false
   | some l => l.all messageCanonical) &&
  nonemptyOpt t.metadata

/-! ## SSE parsing and the streaming surfaces
(`servicer._parse_sse_events`, `A2AServicer.StreamMessage`,
`converters.task_event_to_proto`) -/

/-- Python `str.splitlines()` on the terminators `\\n`, `\\r\\n`, `\\r`
(the SSE bodies the server emits are `\\n`-separated; the exotic unicode
line breaks Python also splits on do not occur). -/
def splitlinesAux (acc : List Char) : List Char → List (List Char)
  | [] => if acc = [] then [] else [acc.reverse]
  | '\r' :: '\n' :: rest => acc.reverse :: splitlinesAux [] rest
  | '\r' :: rest => acc.reverse :: splitlinesAux [] rest
  | '\n' :: rest => acc.reverse :: splitlinesAux [] rest
  | c :: rest => splitlinesAux (c :: acc) rest

/-- Python `str.splitlines()`. -/
def splitlines (l : List Char) : List (List Char) := splitlinesAux [] l

/-- Payload extraction of `_parse_sse_events`: for every line starting with
`data:`, the stripped remainder when non-empty. -/
def ssePayloads (chunk : List Char) : List (List Char) :=
  (splitlines chunk).filterMap (fun line =>
    if "data:".data.isPrefixOf line then
      let payload := pyStrip (line.drop 5)
      if payload = [] then none else some payload
    else none)

/-- A TaskEvent dict as parsed from an SSE `data:` payload (spec §4.2):
a status-update or artifact-update with optional bookkeeping keys.  Ids
arrive as canonical UUID strings and are carried as UUID values
(`uuid_to_str` is the identity on such strings). -/
structure SSEEvent where
  kind : String
  task_id : Option PyUUID
  context_id : Option PyUUID
  final : Option Bool
  status : Option TaskStatus
  error : Option String
  append : Option Bool
  last_chunk : Option Bool
  artifact : Option Artifact
  metadata : Option StrMap
deriving DecidableEq, Repr

/-- `servicer._parse_sse_events` with `json.loads` as an oracle parameter
(payload parsing is the external `json` module; a parse failure raises,
modelled as `none`). -/
def parse_sse_events (loads : List Char → Option SSEEvent)
    (chunk : List Char) : Option (List SSEEvent) :=
  (ssePayloads chunk).mapM loads

/-- Python dict assignment `m[k] = v`: replace in place when the key
exists, else append. -/
def setKey (m : StrMap) (k v : String) : StrMap :=
  if m.any (fun kv => kv.1 == k) then
    m.map (fun kv => if kv.1 == k then (k, v) else kv)
  else m ++ [(k, v)]

/-- Protobuf `TaskStatusUpdateEvent`. -/
structure ProtoTaskStatusUpdateEvent where
  task_id : String
  context_id : String
  final : Bool
  status : ProtoTaskStatus
  metadata : StrMap
deriving DecidableEq, Repr

/-- Protobuf `TaskArtifactUpdateEvent`. -/
structure ProtoTaskArtifactUpdateEvent where
  task_id : String
  context_id : String
  append : Bool
  last_chunk : Bool
  artifact : ProtoArtifact
  metadata : StrMap
deriving DecidableEq, Repr

/-- Protobuf `TaskEvent`: a `oneof` over status/artifact updates. -/
inductive ProtoTaskEvent where
  | status_update (e : ProtoTaskStatusUpdateEvent)
  | artifact_update (e : ProtoTaskArtifactUpdateEvent)
deriving DecidableEq, Repr

/-- `converters.task_status_update_event_to_proto` (reads `event["status"]`;
a missing key raises, modelled as `none`). -/
def task_status_update_event_to_proto (e : SSEEvent) :
    Option ProtoTaskStatusUpdateEvent :=
  e.status.map (fun st =>
    { task_id := uuidToStr e.task_id
      context_id := uuidToStr e.context_id
      final := e.final.getD false
      status := task_status_to_proto st
      metadata := e.metadata.getD [] })

/-- `converters.task_artifact_update_event_to_proto` (reads
`event["artifact"]`). -/
def task_artifact_update_event_to_proto (e : SSEEvent) :
    Option ProtoTaskArtifactUpdateEvent :=
  e.artifact.map (fun a =>
    { task_id := uuidToStr e.task_id
      context_id := uuidToStr e.context_id
      append := e.append.getD false
      last_chunk := e.last_chunk.getD false
      artifact := artifact_to_proto a
      metadata := e.metadata.getD [] })

/-- `converters.task_event_to_proto`: status-update events first fold a
present `error` value into `metadata["error"]`; unknown kinds raise
`ValueError` (`none`). -/
def task_event_to_proto (e : SSEEvent) : Option ProtoTaskEvent :=
  if e.kind = "status-update" then
    let e2 := match e.error with
      | some err =>
        { e with metadata := some (setKey (e.metadata.getD []) "error" err) }
      | none => e
    (task_status_update_event_to_proto e2).map ProtoTaskEvent.status_update
  else if e.kind = "artifact-update" then
    (task_artifact_update_event_to_proto e).map ProtoTaskEvent.artifact_update
  else none

/-- The gRPC `StreamMessage` surface: for every SSE chunk of the underlying
response, in order, every parsed event is yielded as its protobuf
conversion (`async for chunk ...: for event in parse: yield convert`);
a parse or conversion failure aborts the stream. -/
def streamMessageEvents (loads : List Char → Option SSEEvent) :
    List (List Char) → Option (List ProtoTaskEvent)
  | [] => some []
  | chunk :: rest => do
    let events ← parse_sse_events loads chunk
    let protos ← events.mapM task_event_to_proto
    let more ← streamMessageEvents loads rest
    pure (protos ++ more)

/-- The JSON-RPC surface of the same response: the sequence of TaskEvents
carried by the SSE `data:` lines, in order. -/
def sseEventSequence (loads : List Char → Option SSEEvent)
    (chunks : List (List Char)) : Option (List SSEEvent) :=
  (chunks.mapM (parse_sse_events loads)).map List.flatten

/-- The `(kind, state, artifact_id, last_chunk)` observation of a wire
event. -/
structure EventTuple where
  kind : String
  state : Option String
  artifactId : Option String
  lastChunk : Option Bool
deriving DecidableEq, Repr

/-- Observation of a JSON-RPC SSE event (an absent `last_chunk` key on an
artifact-update reads as `false` on the wire). -/
def sseEventTuple (e : SSEEvent) : EventTuple :=
  { kind := e.kind
    state := e.status.map (·.state)
    artifactId := e.artifact.map (fun a => uuidToStr (some a.artifact_id))
    lastChunk :=
      if e.kind = "artifact-update" then some (e.last_chunk.getD false)
      else none }

/-- Observation of a gRPC TaskEvent. -/
def protoEventTuple : ProtoTaskEvent → EventTuple
  | .status_update e =>
    { kind := "status-update"
      state := some e.status.state
      artifactId := none
      lastChunk := none }
  | .artifact_update e =>
    { kind := "artifact-update"
      state := none
      artifactId := some e.artifact.artifact_id
      lastChunk := some e.last_chunk }

/-- TaskEvents the worker produces (spec §4.2): a status-update carries a
status and no artifact; an artifact-update carries an artifact and no
status. -/
def eventWellFormed (e : SSEEvent) : Bool :=
  (e.kind == "status-update" && e.status.isSome && e.artifact.isNone) ||
  (e.kind == "artifact-update" && e.artifact.isSome && e.status.isNone)

/-! ## DID request signatures (`bindu/utils/did_signature.py`)

`sign_request` and `verify_signature` serialize the payload
`{"body": ..., "did": ..., "timestamp": ...}` with
`json.dumps(..., sort_keys=True)` (separators `", "` / `": "`,
`ensure_ascii=True`) and delegate the cryptography to the DID extension
(`sign_message` / `verify_signature_with_public_key`), which is not under
`src/`; it is modelled as an abstract signature scheme
(`sign : String → String`, `verify : message → signature → public_key →
Bool`) whose correctness is a hypothesis of the theorems. -/

/-- Four lowercase hex digits (`'%04x'`), as produced by Python's JSON
`\uXXXX` escapes. -/
def hex4 (n : Nat) : List Char :=
  [hexChar (n / 4096 % 16), hexChar (n / 256 % 16), hexChar (n / 16 % 16),
   hexChar (n % 16)]

/-- Python `json.dumps` escaping of one character (`ensure_ascii=True`):
`"` and `\` are escaped, control characters get their short escapes, and
every character outside printable ASCII is `\uXXXX`-escaped (astral
characters as a surrogate pair). -/
def escChar (c : Char) : List Char :=
  if c = '"' then ['\\', '"']
  else if c = '\\' then ['\\', '\\']
  else if c.toNat = 8 then ['\\', 'b']
  else if c.toNat = 9 then ['\\', 't']
  else if c.toNat = 10 then ['\\', 'n']
  else if c.toNat = 12 then ['\\', 'f']
  else if c.toNat = 13 then ['\\', 'r']
  else if c.toNat < 0x20 ∨ 0x7e < c.toNat then
    if c.toNat < 0x10000 then '\\' :: 'u' :: hex4 c.toNat
    else '\\' :: 'u' :: hex4 (0xd800 + (c.toNat - 0x10000) / 0x400) ++
      '\\' :: 'u' :: hex4 (0xdc00 + (c.toNat - 0x10000) % 0x400)
  else [c]

/-- JSON escaping of a character sequence. -/
def escapeChars (l : List Char) : List Char := (l.map escChar).flatten

/-- JSON encoding of a string (quotes plus escaped content). -/
def encStr (s : String) : List Char := '"' :: escapeChars s.data ++ ['"']

/-- Combined value of four hex digit characters. -/
def hex4Val (a b c d : Char) : Option Nat := do
  let va ← hexVal a
  let vb ← hexVal b
  let vc ← hexVal c
  let vd ← hexVal d
  pure (4096 * va + 256 * vb + 16 * vc + vd)

/-- Decoder step for a surrogate-pair escape: expects `\\uXXXX` with a low
surrogate and combines it with the high surrogate value `v`. -/
def unescSurrogate (recur : List Char → Option (List Char)) (v : Nat) :
    List Char → Option (List Char)
  | b2 :: u2 :: g1 :: g2 :: g3 :: g4 :: r2 =>
    if b2 = '\\' ∧ u2 = 'u' then
      (hex4Val g1 g2 g3 g4).bind (fun w =>
        if 0xdc00 ≤ w ∧ w < 0xe000 then
          (recur r2).map
            (Char.ofNat (0x10000 + (v - 0xd800) * 0x400 + (w - 0xdc00)) :: ·)
        else none)
    else none
  | _ => none

/-- Decoder step for a `\\uXXXX` escape. -/
def unescU (recur : List Char → Option (List Char)) :
    List Char → Option (List Char)
  | h1 :: h2 :: h3 :: h4x :: r =>
    (hex4Val h1 h2 h3 h4x).bind (fun v =>
      if 0xd800 ≤ v ∧ v < 0xdc00 then unescSurrogate recur v r
      else if 0xdc00 ≤ v ∧ v < 0xe000 then none
      else (recur r).map (Char.ofNat v :: ·))
  | _ => none

/-- Decoder step after a backslash. -/
def unescEscape (recur : List Char → Option (List Char)) :
    List Char → Option (List Char)
  | [] => none
  | e :: rest2 =>
    if e = '"' then (recur rest2).map ('"' :: ·)
    else if e = '\\' then (recur rest2).map ('\\' :: ·)
    else if e = 'b' then (recur rest2).map (Char.ofNat 8 :: ·)
    else if e = 't' then (recur rest2).map (Char.ofNat 9 :: ·)
    else if e = 'n' then (recur rest2).map (Char.ofNat 10 :: ·)
    else if e = 'f' then (recur rest2).map (Char.ofNat 12 :: ·)
    else if e = 'r' then (recur rest2).map (Char.ofNat 13 :: ·)
    else if e = 'u' then unescU recur rest2
    else none

/-- Fuel-driven decoder for the JSON string escaping, used to establish
that `escapeChars` is injective.  Each escape sequence consumes exactly one
unit of fuel, so the length of the escaped text always suffices.  Lone
surrogate escapes are rejected. -/
def unescapeFuel : Nat → List Char → Option (List Char)
  | _, [] => some []
  | 0, _ :: _ => none
  | fuel + 1, c :: rest =>
    if c ≠ '\\' then (unescapeFuel fuel rest).map (c :: ·)
    else unescEscape (unescapeFuel fuel) rest

/-- Python string comparison (code-point lexicographic `<=`), used by
`sort_keys=True`. -/
def lexLe : List Char → List Char → Bool
  | [], _ => true
  | _ :: _, [] => false
  | x :: xs, y :: ys =>
    if x.toNat < y.toNat then true
    else if y.toNat < x.toNat then false
    else lexLe xs ys

/-- Insertion into a key-sorted association list. -/
def insertSorted (kv : String × PyJson) :
    List (String × PyJson) → List (String × PyJson)
  | [] => [kv]
  | kv' :: rest =>
    if lexLe kv.1.data kv'.1.data then kv :: kv' :: rest
    else kv' :: insertSorted kv rest

/-- Key-sorting of an object (`sort_keys=True`). -/
def sortByKey (l : List (String × PyJson)) : List (String × PyJson) :=
  l.foldr insertSorted []

/-- Comma-join with the default `", "` separator. -/
def intercalateComma (xs : List (List Char)) : List Char :=
  (List.intersperse ", ".data xs).flatten

/-- Items of an array chain (improper tails end the chain). -/
def arrItems : PyJson → List PyJson
  | .arrCons hd tl => hd :: arrItems tl
  | _ => []

/-- Items of an object chain. -/
def objItems : PyJson → List (String × PyJson)
  | .objCons k v tl => (k, v) :: objItems tl
  | _ => []

/-- Fuel-driven `json.dumps(..., sort_keys=True)` for JSON values
(structural on the fuel so the definition stays kernel-computable;
the structural size of the value always suffices as fuel). -/
def dumpsJsonFuel : Nat → PyJson → List Char
  | _, .null => "null".data
  | _, .bool true => "true".data
  | _, .bool false => "false".data
  | _, .num n => (toString n).data
  | _, .str s => encStr s
  | 0, _ => []
  | fuel + 1, .arrCons hd tl =>
    '[' :: intercalateComma ((hd :: arrItems tl).map (dumpsJsonFuel fuel)) ++ [']']
  | _, .arrNil => "[]".data
  | fuel + 1, j =>
    '{' :: intercalateComma ((sortByKey (objItems j)).map
      (fun kv => encStr kv.1 ++ ':' :: ' ' :: dumpsJsonFuel fuel kv.2)) ++ ['}']

/-- Structural size of a JSON value, used as recursion fuel. -/
def jsonFuel : PyJson → Nat
  | .null | .bool _ | .num _ | .str _ => 1
  | .arrNil | .objNil => 1
  | .arrCons hd tl => 1 + jsonFuel hd + jsonFuel tl
  | .objCons _ v tl => 1 + jsonFuel v + jsonFuel tl

/-- `json.dumps(value, sort_keys=True)` of a JSON value. -/
def dumpsJson (j : PyJson) : List Char := dumpsJsonFuel (jsonFuel j) j

/-- `json.dumps(dict, sort_keys=True)` of a top-level JSON object. -/
def dumpsObjSorted (d : JsonObj) : List Char :=
  '{' :: intercalateComma ((sortByKey d).map
    (fun kv => encStr kv.1 ++ ':' :: ' ' :: dumpsJson kv.2)) ++ ['}']

/-- Request body accepted by the signature helpers: `str | bytes | dict`.
Bytes are UTF-8 decodable in every call the system makes and are carried as
the decoded string. -/
inductive Body where
  | str (s : String)
  | bytes (b : String)
  | dict (d : JsonObj)
deriving DecidableEq, Repr

/-- Body canonicalization done by `create_signature_payload`: dicts are
serialized with sorted keys, bytes are UTF-8 decoded, strings pass
through. -/
def bodyStr : Body → String
  | .str s => s
  | .bytes b => b
  | .dict d => ⟨dumpsObjSorted d⟩

/-- `did_signature.create_signature_payload` (the `timestamp=None` default
is `int(time.time())`, passed explicitly here: the embedding is pure). -/
structure SignaturePayload where
  body : String
  timestamp : Int
  did : String
deriving DecidableEq, Repr

/-- Payload construction from `create_signature_payload`. -/
def create_signature_payload (body : Body) (did : String) (timestamp : Int) :
    SignaturePayload :=
  { body := bodyStr body, timestamp := timestamp, did := did }

/-- `json.dumps(payload, sort_keys=True)`: the keys sort as
`body < did < timestamp`, so the serialization has this fixed shape. -/
def payloadString (p : SignaturePayload) : String :=
  ⟨"\x7b\"body\": ".data ++ encStr p.body ++ ", \"did\": ".data ++ encStr p.did ++
    ", \"timestamp\": ".data ++ (toString p.timestamp).data ++ ['\x7d']⟩

/-- Signature headers returned by `sign_request` (`X-DID`,
`X-DID-Signature`, `X-DID-Timestamp`; the timestamp header is
`str(timestamp)` and is carried numerically). -/
structure SignatureHeaders where
  did : String
  signature : String
  timestamp : Int
deriving DecidableEq, Repr

/-- `did_signature.sign_request` over an abstract signer. -/
def sign_request (sign : String → String) (body : Body) (did : String)
    (timestamp : Int) : SignatureHeaders :=
  let payload := create_signature_payload body did timestamp
  { did := did
    signature := sign (payloadString payload)
    timestamp := payload.timestamp }

/-- `did_signature.verify_signature` over an abstract verifier: reject a
timestamp farther than `max_age_seconds` from `now` *before* any
cryptographic check, then reconstruct the payload and verify. -/
def verify_signature (verify : String → String → String → Bool) (now : Int)
    (body : Body) (signature : String) (did : String) (timestamp : Int)
    (public_key : String) (max_age_seconds : Int) : Bool :=
  if max_age_seconds < |now - timestamp| then false
  else
    verify (payloadString (create_signature_payload body did timestamp))
      signature public_key

/-! ## Theorems -/

theorem hexVal_hexChar : ∀ m < 16, hexVal (hexChar m) = some m := by decide

theorem length_toHexFixed (k n : Nat) : (toHexFixed k n).length = k := by
  induction k generalizing n with
  | zero => rfl
  | succ k ih => simp [toHexFixed, ih]

theorem mem_toHexFixed_isHex (k n : Nat) :
    ∀ c ∈ toHexFixed k n, (hexVal c).isSome ∧ c ≠ '-' ∧ c ≠ 'u' ∧ c ≠ '{' ∧ c ≠ '}' := by
  induction k generalizing n with
  | zero => intro c hc; simp [toHexFixed] at hc
  | succ k ih =>
    intro c hc
    simp only [toHexFixed, List.mem_append, List.mem_singleton] at hc
    rcases hc with hc | hc
    · exact ih _ c hc
    · subst hc
      have h16 : n % 16 < 16 := Nat.mod_lt _ (by norm_num)
      have hall : ∀ m < 16, (hexVal (hexChar m)).isSome ∧ hexChar m ≠ '-' ∧
          hexChar m ≠ 'u' ∧ hexChar m ≠ '{' ∧ hexChar m ≠ '}' := by decide
      exact hall _ h16

theorem parseHexList_append_digit (l : List Char) (c : Char) :
    parseHexList (l ++ [c]) = 16 * parseHexList l + (hexVal c).getD 0 := by
  simp [parseHexList, List.foldl_append]

theorem parseHexList_toHexFixed (k : Nat) : ∀ n < 16 ^ k,
    parseHexList (toHexFixed k n) = n := by
  induction k with
  | zero => intro n hn; interval_cases n; rfl
  | succ k ih =>
    intro n hn
    have hdiv : n / 16 < 16 ^ k := by
      rw [Nat.div_lt_iff_lt_mul (by norm_num)]
      calc n < 16 ^ (k + 1) := hn
        _ = 16 ^ k * 16 := by ring
    have hmod : n % 16 < 16 := Nat.mod_lt _ (by norm_num)
    rw [toHexFixed, parseHexList_append_digit, ih _ hdiv, hexVal_hexChar _ hmod]
    simp [Nat.div_add_mod]

theorem replaceAllFuel_of_not_head (p : Char) (pat rep : List Char) :
    ∀ (fuel : Nat) (l : List Char), (∀ c ∈ l, c ≠ p) →
      replaceAllFuel (p :: pat) rep fuel l = l := by
  intro fuel
  induction fuel with
  | zero => intro l _; cases l <;> rfl
  | succ fuel ih =>
    intro l h
    cases l with
    | nil => rfl
    | cons c rest =>
      rw [replaceAllFuel]
      have hcp : c ≠ p := h c (List.mem_cons_self c rest)
      have hnp : ¬ ((p :: pat).isPrefixOf (c :: rest) ∧ p :: pat ≠ []) := by
        rintro ⟨hpre, -⟩
        simp only [List.isPrefixOf, Bool.and_eq_true, beq_iff_eq] at hpre
        exact hcp hpre.1.symm
      rw [if_neg hnp, ih rest (fun c hc => h c (List.mem_cons_of_mem _ hc))]

theorem replaceAll_of_not_head (p : Char) (pat rep : List Char) :
    ∀ l : List Char, (∀ c ∈ l, c ≠ p) → replaceAll (p :: pat) rep l = l :=
  fun l h => replaceAllFuel_of_not_head p pat rep l.length l h

theorem replaceAllFuel_single (c : Char) :
    ∀ (fuel : Nat) (l : List Char), l.length ≤ fuel →
      replaceAllFuel [c] [] fuel l = l.filter (· != c) := by
  intro fuel
  induction fuel with
  | zero =>
    intro l h
    have : l = [] := List.eq_nil_of_length_eq_zero (Nat.le_zero.mp h)
    subst this
    rfl
  | succ fuel ih =>
    intro l h
    cases l with
    | nil => rfl
    | cons x rest =>
      have hlen : rest.length ≤ fuel := by
        simp only [List.length_cons] at h
        omega
      rw [replaceAllFuel]
      by_cases hxc : x = c
      · subst hxc
        rw [if_pos ⟨by simp [List.isPrefixOf], by simp⟩]
        simpa using ih rest hlen
      · rw [if_neg]
        · have : (x != c) = true := by simpa using hxc
          simp [List.filter_cons, this, ih rest hlen]
        · rintro ⟨hpre, -⟩
          simp only [List.isPrefixOf, Bool.and_eq_true, beq_iff_eq] at hpre
          exact hxc hpre.1.symm

theorem replaceAll_single (c : Char) (l : List Char) :
    replaceAll [c] [] l = l.filter (· != c) :=
  replaceAllFuel_single c l.length l le_rfl

theorem dropWhile_eq_self_of_not (p : Char → Prop) [DecidablePred p]
    (l : List Char) (h : ∀ c ∈ l, ¬ p c) :
    l.dropWhile (fun c => decide (p c)) = l := by
  cases l with
  | nil => rfl
  | cons x rest =>
    rw [List.dropWhile_cons]
    simp [h x (List.mem_cons_self x rest)]

theorem stripBraces_eq_self (l : List Char) (h : ∀ c ∈ l, c ≠ '{' ∧ c ≠ '}') :
    stripBraces l = l := by
  unfold stripBraces
  have h1 : l.dropWhile (fun c => decide (c = '{' ∨ c = '}')) = l := by
    apply dropWhile_eq_self_of_not
    intro c hc
    rcases h c hc with ⟨h1, h2⟩
    rintro (rfl | rfl) <;> simp_all
  rw [h1]
  have h2 : l.reverse.dropWhile (fun c => decide (c = '{' ∨ c = '}')) = l.reverse := by
    apply dropWhile_eq_self_of_not
    intro c hc
    rcases h c (List.mem_reverse.mp hc) with ⟨h1, h2⟩
    rintro (rfl | rfl) <;> simp_all
  rw [h2, List.reverse_reverse]

theorem mem_uuidGroups (h : List Char) (P : Char → Prop)
    (hmem : ∀ c ∈ h, P c) :
    ∀ c ∈ uuidGroups h, P c ∨ c = '-' := by
  intro c hc
  unfold uuidGroups at hc
  rcases List.mem_append.mp hc with h1 | h1
  swap
  · rcases List.mem_cons.mp h1 with rfl | h1
    · exact Or.inr rfl
    · exact Or.inl (hmem c (List.mem_of_mem_drop h1))
  rcases List.mem_append.mp h1 with h1 | h1
  swap
  · rcases List.mem_cons.mp h1 with rfl | h1
    · exact Or.inr rfl
    · exact Or.inl (hmem c (List.mem_of_mem_drop (List.mem_of_mem_take h1)))
  rcases List.mem_append.mp h1 with h1 | h1
  swap
  · rcases List.mem_cons.mp h1 with rfl | h1
    · exact Or.inr rfl
    · exact Or.inl (hmem c (List.mem_of_mem_drop (List.mem_of_mem_take h1)))
  rcases List.mem_append.mp h1 with h1 | h1
  swap
  · rcases List.mem_cons.mp h1 with rfl | h1
    · exact Or.inr rfl
    · exact Or.inl (hmem c (List.mem_of_mem_drop (List.mem_of_mem_take h1)))
  exact Or.inl (hmem c (List.mem_of_mem_take h1))

theorem mem_uuidCanonicalChars (n : Nat) :
    ∀ c ∈ uuidCanonicalChars n,
      ((hexVal c).isSome ∧ c ≠ '-' ∧ c ≠ 'u' ∧ c ≠ '{' ∧ c ≠ '}') ∨ c = '-' :=
  mem_uuidGroups _ _ (mem_toHexFixed_isHex 32 n)

theorem filter_hyphen_uuidGroups (h : List Char) (hne : ∀ c ∈ h, c ≠ '-') :
    (uuidGroups h).filter (· != '-') = h := by
  unfold uuidGroups
  have hid : ∀ l : List Char, (∀ c ∈ l, c ≠ '-') → l.filter (· != '-') = l := by
    intro l hl
    apply List.filter_eq_self.mpr
    intro c hc
    simpa using hl c hc
  have hyph : ('-' != '-') = false := by decide
  simp only [List.filter_append, List.filter_cons, hyph, Bool.false_eq_true, if_false]
  rw [hid (h.take 8) (fun c hc => hne c (List.mem_of_mem_take hc)),
    hid ((h.drop 8).take 4) (fun c hc => hne c (List.mem_of_mem_drop (List.mem_of_mem_take hc))),
    hid ((h.drop 12).take 4) (fun c hc => hne c (List.mem_of_mem_drop (List.mem_of_mem_take hc))),
    hid ((h.drop 16).take 4) (fun c hc => hne c (List.mem_of_mem_drop (List.mem_of_mem_take hc))),
    hid (h.drop 20) (fun c hc => hne c (List.mem_of_mem_drop hc))]
  simp only [List.append_assoc]
  have e16 : (h.drop 16).take 4 ++ h.drop 20 = h.drop 16 := by
    have := List.take_append_drop 4 (h.drop 16)
    rwa [List.drop_drop, show 4 + 16 = 20 from rfl] at this
  have e12 : (h.drop 12).take 4 ++ h.drop 16 = h.drop 12 := by
    have := List.take_append_drop 4 (h.drop 12)
    rwa [List.drop_drop, show 4 + 12 = 16 from rfl] at this
  have e8 : (h.drop 8).take 4 ++ h.drop 12 = h.drop 8 := by
    have := List.take_append_drop 4 (h.drop 8)
    rwa [List.drop_drop, show 4 + 8 = 12 from rfl] at this
  calc h.take 8 ++ ((h.drop 8).take 4 ++ ((h.drop 12).take 4 ++ ((h.drop 16).take 4 ++ h.drop 20)))
      = h.take 8 ++ ((h.drop 8).take 4 ++ ((h.drop 12).take 4 ++ h.drop 16)) := by rw [e16]
    _ = h.take 8 ++ ((h.drop 8).take 4 ++ h.drop 12) := by rw [e12]
    _ = h.take 8 ++ h.drop 8 := by rw [e8]
    _ = h := List.take_append_drop 8 h

/-- Round-trip of the textual UUID codec: parsing the canonical form
recovers the 128-bit value. -/
theorem strToUuid_uuidToStr (u : PyUUID) (hu : u.val < 2 ^ 128) :
    strToUuid (uuidToStr (some u)) = some u := by
  have hmem := mem_uuidCanonicalChars u.val
  have hne : (uuidCanonicalChars u.val) ≠ [] := by
    unfold uuidCanonicalChars uuidGroups
    simp
  rw [uuidToStr, strToUuid]
  rw [if_neg (by simpa using hne)]
  have hnu : ∀ c ∈ uuidCanonicalChars u.val, c ≠ 'u' := by
    intro c hc
    rcases hmem c hc with ⟨-, -, h, -, -⟩ | rfl <;> simp_all
  have hurn : replaceAll "urn:".data [] (uuidCanonicalChars u.val) =
      uuidCanonicalChars u.val :=
    replaceAll_of_not_head 'u' _ [] _ hnu
  have huuid : replaceAll "uuid:".data [] (uuidCanonicalChars u.val) =
      uuidCanonicalChars u.val :=
    replaceAll_of_not_head 'u' _ [] _ hnu
  have hstrip : stripBraces (uuidCanonicalChars u.val) = uuidCanonicalChars u.val := by
    apply stripBraces_eq_self
    intro c hc
    rcases hmem c hc with ⟨-, -, -, h1, h2⟩ | rfl <;> simp_all
  have hfil : (uuidCanonicalChars u.val).filter (· != '-') = toHexFixed 32 u.val := by
    unfold uuidCanonicalChars
    exact filter_hyphen_uuidGroups _
      (fun c hc => (mem_toHexFixed_isHex 32 u.val c hc).2.1)
  simp only [hurn, huuid, hstrip, replaceAll_single, hfil]
  have hlen : (toHexFixed 32 u.val).length = 32 := length_toHexFixed 32 u.val
  have hall : (toHexFixed 32 u.val).all (fun c => (hexVal c).isSome) := by
    rw [List.all_eq_true]
    intro c hc
    exact (mem_toHexFixed_isHex 32 u.val c hc).1
  rw [if_pos ⟨hlen, hall⟩, parseHexList_toHexFixed 32 u.val (by norm_num at hu ⊢; exact hu)]


/-! ### Converter round-trip lemmas -/

theorem uuidCanonicalChars_ne_nil (n : Nat) : uuidCanonicalChars n ≠ [] := by
  unfold uuidCanonicalChars uuidGroups
  simp

theorem uuidToStr_some_ne_empty (u : PyUUID) : uuidToStr (some u) ≠ "" := by
  unfold uuidToStr
  intro hc
  exact uuidCanonicalChars_ne_nil u.val (congrArg String.data hc)

theorem decodeId_uuidToStr (u : PyUUID) (hu : uuidOk u = true) :
    decodeId (uuidToStr (some u)) = u := by
  unfold decodeId
  rw [strToUuid_uuidToStr u (by simpa [uuidOk] using hu)]
  rfl

theorem nonemptyOpt_getD_roundtrip {α : Type} [DecidableEq α]
    (o : Option (List α)) (h : nonemptyOpt o = true) :
    (if o.getD [] = [] then none else some (o.getD [])) = o := by
  cases o with
  | none => simp
  | some l =>
    simp only [nonemptyOpt, Bool.not_eq_true'] at h
    have hl : l ≠ [] := by
      intro hc
      subst hc
      simp at h
    simp [Option.getD, hl]

theorem proto_to_part_part_to_proto (p : Part) (h : partCanonical p = true) :
    proto_to_part (part_to_proto p) = some p := by
  cases p with
  | text t md emb =>
    simp only [partCanonical, Bool.and_eq_true] at h
    obtain ⟨hmd, hemb⟩ := h
    simp only [part_to_proto, proto_to_part,
      nonemptyOpt_getD_roundtrip md hmd, nonemptyOpt_getD_roundtrip emb hemb]
  | file t f md =>
    obtain ⟨uri, bytes, mimeType, name⟩ := f
    simp only [partCanonical, Bool.and_eq_true, beq_iff_eq, bne_iff_ne, ne_eq,
      Option.isNone_iff_eq_none, Option.isSome_iff_exists] at h
    obtain ⟨⟨⟨⟨⟨ht, huri⟩, hbytes⟩, m, hm⟩, nm, hnm⟩, hmd⟩ := h
    subst ht
    subst hbytes
    subst hm
    subst hnm
    cases uri with
    | none => simp at huri
    | some u =>
      simp only [Option.getD] at huri
      simp only [part_to_proto, proto_to_part,
        nonemptyOpt_getD_roundtrip md hmd]
      simp [pyOrStr, huri]
  | data t d md =>
    simp only [partCanonical, Bool.and_eq_true, beq_iff_eq] at h
    obtain ⟨ht, hmd⟩ := h
    subst ht
    simp only [part_to_proto, proto_to_part,
      nonemptyOpt_getD_roundtrip md hmd]

theorem mapM_proto_to_part (ps : List Part)
    (h : ∀ p ∈ ps, partCanonical p = true) :
    (ps.map part_to_proto).mapM proto_to_part = some ps := by
  induction ps with
  | nil => rfl
  | cons p ps ih =>
    simp only [List.map_cons, List.mapM_cons]
    rw [proto_to_part_part_to_proto p (h p (List.mem_cons_self p ps)),
      ih (fun q hq => h q (List.mem_cons_of_mem _ hq))]
    rfl

theorem refs_roundtrip (rs : List (Option PyUUID))
    (h : ∀ r ∈ rs, ∃ u, r = some u ∧ uuidOk u = true) :
    ((rs.map uuidToStr).filter (· ≠ "")).map strToUuid = rs := by
  induction rs with
  | nil => rfl
  | cons r rs ih =>
    obtain ⟨u, hr, hu⟩ := h r (List.mem_cons_self r rs)
    subst hr
    simp only [List.map_cons, List.filter_cons]
    rw [if_pos (by simpa using uuidToStr_some_ne_empty u)]
    simp only [List.map_cons]
    rw [strToUuid_uuidToStr u (by simpa [uuidOk] using hu),
      ih (fun q hq => h q (List.mem_cons_of_mem _ hq))]

theorem proto_to_message_message_to_proto (m : Message)
    (h : messageCanonical m = true) :
    proto_to_message (message_to_proto m) = some m := by
  obtain ⟨mid, cid, tid, refs, kind, role, md, parts, exts⟩ := m
  simp only [messageCanonical, Bool.and_eq_true, beq_iff_eq, bne_iff_ne,
    ne_eq] at h
  obtain ⟨⟨⟨⟨⟨⟨⟨⟨hmid, hcid⟩, htid⟩, hkind⟩, hrole⟩, hrefs⟩, hparts⟩, hmd⟩,
    hexts⟩ := h
  subst hkind
  cases parts with
  | none => simp at hparts
  | some ps =>
    have hps : ∀ p ∈ ps, partCanonical p = true := by
      simpa using List.all_eq_true.mp hparts
    simp only [message_to_proto, proto_to_message, Option.getD_some]
    rw [mapM_proto_to_part ps hps]
    simp only [Option.bind_some, Option.some_bind, Option.bind_eq_bind]
    rw [decodeId_uuidToStr mid hmid, decodeId_uuidToStr cid hcid,
      decodeId_uuidToStr tid htid,
      nonemptyOpt_getD_roundtrip md hmd, nonemptyOpt_getD_roundtrip exts hexts]
    cases refs with
    | none => simp [hrole]
    | some rs =>
      simp only [Bool.and_eq_true] at hrefs
      obtain ⟨hrs0, hrs⟩ := hrefs
      have hrsne : rs ≠ [] := by
        intro hc
        subst hc
        simp at hrs0
      have hrsall : ∀ r ∈ rs, ∃ u, r = some u ∧ uuidOk u = true := by
        intro r hr
        have := List.all_eq_true.mp hrs r hr
        cases r with
        | none => simp at this
        | some u => exact ⟨u, rfl, by simpa using this⟩
      simp only [Option.getD_some]
      rw [if_neg (by simpa using hrsne), refs_roundtrip rs hrsall]
      simp [hrole]

theorem proto_to_task_status_roundtrip (now : String) (st : TaskStatus)
    (h : statusCanonical st = true) :
    proto_to_task_status now (task_status_to_proto st) = some st := by
  obtain ⟨state, timestamp, message⟩ := st
  simp only [statusCanonical, Bool.and_eq_true, bne_iff_ne, ne_eq] at h
  obtain ⟨⟨hstate, hts⟩, hmsg⟩ := h
  cases message with
  | none =>
    simp only [task_status_to_proto, proto_to_task_status, Option.map_none']
    simp [hstate, hts]
  | some msg =>
    simp only [task_status_to_proto, proto_to_task_status, Option.map_some']
    rw [proto_to_message_message_to_proto msg (by simpa using hmsg)]
    simp [hstate, hts]

theorem proto_to_artifact_roundtrip (a : Artifact)
    (h : artifactCanonical a = true) :
    proto_to_artifact (artifact_to_proto a) = some a := by
  obtain ⟨aid, name, parts, md⟩ := a
  simp only [artifactCanonical, Bool.and_eq_true,
    Option.isSome_iff_exists] at h
  obtain ⟨⟨⟨haid, nm, hnm⟩, hparts⟩, hmd⟩ := h
  subst hnm
  cases parts with
  | none => simp at hparts
  | some ps =>
    have hps : ∀ p ∈ ps, partCanonical p = true := by
      simpa using List.all_eq_true.mp hparts
    simp only [artifact_to_proto, proto_to_artifact, Option.getD_some]
    rw [mapM_proto_to_part ps hps]
    simp only [Option.bind_some, Option.some_bind, Option.bind_eq_bind]
    rw [decodeId_uuidToStr aid haid, nonemptyOpt_getD_roundtrip md hmd]

theorem mapM_proto_to_artifact (l : List Artifact)
    (h : ∀ a ∈ l, artifactCanonical a = true) :
    (l.map artifact_to_proto).mapM proto_to_artifact = some l := by
  induction l with
  | nil => rfl
  | cons a l ih =>
    simp only [List.map_cons, List.mapM_cons]
    rw [proto_to_artifact_roundtrip a (h a (List.mem_cons_self a l)),
      ih (fun b hb => h b (List.mem_cons_of_mem _ hb))]
    rfl

theorem mapM_proto_to_message (l : List Message)
    (h : ∀ m ∈ l, messageCanonical m = true) :
    (l.map message_to_proto).mapM proto_to_message = some l := by
  induction l with
  | nil => rfl
  | cons m l ih =>
    simp only [List.map_cons, List.mapM_cons]
    rw [proto_to_message_message_to_proto m (h m (List.mem_cons_self m l)),
      ih (fun b hb => h b (List.mem_cons_of_mem _ hb))]
    rfl

theorem proto_to_task_roundtrip (now : String) (t : Task)
    (h : taskCanonical t = true) :
    proto_to_task now (task_to_proto t) = some t := by
  obtain ⟨id, cid, kind, status, artifacts, history, md⟩ := t
  simp only [taskCanonical, Bool.and_eq_true, bne_iff_ne, ne_eq] at h
  obtain ⟨⟨⟨⟨⟨⟨hid, hcid⟩, hkind⟩, hstatus⟩, harts⟩, hhist⟩, hmd⟩ := h
  cases status with
  | none => simp at hstatus
  | some st =>
    cases artifacts with
    | none => simp at harts
    | some arts =>
      cases history with
      | none => simp at hhist
      | some hist =>
        have harts' : ∀ a ∈ arts, artifactCanonical a = true := by
          simpa using List.all_eq_true.mp harts
        have hhist' : ∀ m ∈ hist, messageCanonical m = true := by
          simpa using List.all_eq_true.mp hhist
        simp only [task_to_proto, proto_to_task, Option.getD_some]
        rw [proto_to_task_status_roundtrip now st (by simpa using hstatus),
          mapM_proto_to_artifact arts harts', mapM_proto_to_message hist hhist']
        simp only [Option.bind_some, Option.some_bind, Option.bind_eq_bind]
        rw [decodeId_uuidToStr id hid, decodeId_uuidToStr cid hcid,
          nonemptyOpt_getD_roundtrip md hmd]
        simp [hkind]

/-! ### JSON string escaping is injective -/

theorem char_toNat_valid (c : Char) :
    c.toNat < 0xd800 ∨ (0xdfff < c.toNat ∧ c.toNat < 0x110000) := by
  have h := c.valid
  unfold UInt32.isValidChar Nat.isValidChar at h
  have he : c.toNat = c.val.toNat := rfl
  rcases h with h | ⟨h1, h2⟩
  · left
    rw [he]
    exact h
  · right
    rw [he]
    exact ⟨h1, h2⟩

theorem hex4Val_hexChar (v : Nat) :
    hex4Val (hexChar (v / 4096 % 16)) (hexChar (v / 256 % 16))
      (hexChar (v / 16 % 16)) (hexChar (v % 16)) =
      some (4096 * (v / 4096 % 16) + 256 * (v / 256 % 16) +
        16 * (v / 16 % 16) + v % 16) := by
  have d1 : v / 4096 % 16 < 16 := Nat.mod_lt _ (by norm_num)
  have d2 : v / 256 % 16 < 16 := Nat.mod_lt _ (by norm_num)
  have d3 : v / 16 % 16 < 16 := Nat.mod_lt _ (by norm_num)
  have d4 : v % 16 < 16 := Nat.mod_lt _ (by norm_num)
  unfold hex4Val
  rw [hexVal_hexChar _ d1, hexVal_hexChar _ d2, hexVal_hexChar _ d3,
    hexVal_hexChar _ d4]
  rfl

theorem unescapeFuel_u_bmp (fuel v : Nat) (hv : v < 0x10000)
    (hlo : ¬ (0xd800 ≤ v ∧ v < 0xdc00)) (hhi : ¬ (0xdc00 ≤ v ∧ v < 0xe000))
    (r : List Char) :
    unescapeFuel (fuel + 1) ('\\' :: 'u' :: (hex4 v ++ r)) =
      (unescapeFuel fuel r).map (Char.ofNat v :: ·) := by
  have step : unescapeFuel (fuel + 1) ('\\' :: 'u' :: (hex4 v ++ r)) =
      unescU (unescapeFuel fuel) (hexChar (v / 4096 % 16) ::
        hexChar (v / 256 % 16) :: hexChar (v / 16 % 16) ::
        hexChar (v % 16) :: r) := rfl
  rw [step]
  have step2 : unescU (unescapeFuel fuel) (hexChar (v / 4096 % 16) ::
      hexChar (v / 256 % 16) :: hexChar (v / 16 % 16) :: hexChar (v % 16) :: r) =
      (hex4Val (hexChar (v / 4096 % 16)) (hexChar (v / 256 % 16))
        (hexChar (v / 16 % 16)) (hexChar (v % 16))).bind (fun w =>
        if 0xd800 ≤ w ∧ w < 0xdc00 then unescSurrogate (unescapeFuel fuel) w r
        else if 0xdc00 ≤ w ∧ w < 0xe000 then none
        else (unescapeFuel fuel r).map (Char.ofNat w :: ·)) := rfl
  rw [step2, hex4Val_hexChar v]
  simp only [Option.some_bind]
  have hval : 4096 * (v / 4096 % 16) + 256 * (v / 256 % 16) +
      16 * (v / 16 % 16) + v % 16 = v := by omega
  rw [hval, if_neg hlo, if_neg hhi]

theorem unescapeFuel_u_surrogates (fuel hi lo : Nat)
    (hhi : 0xd800 ≤ hi ∧ hi < 0xdc00) (hlo : 0xdc00 ≤ lo ∧ lo < 0xe000)
    (r : List Char) :
    unescapeFuel (fuel + 1) ('\\' :: 'u' :: (hex4 hi ++
        ('\\' :: 'u' :: (hex4 lo ++ r)))) =
      (unescapeFuel fuel r).map
        (Char.ofNat (0x10000 + (hi - 0xd800) * 0x400 + (lo - 0xdc00)) :: ·) := by
  have step : unescapeFuel (fuel + 1) ('\\' :: 'u' :: (hex4 hi ++
      ('\\' :: 'u' :: (hex4 lo ++ r)))) =
      unescU (unescapeFuel fuel) (hexChar (hi / 4096 % 16) ::
        hexChar (hi / 256 % 16) :: hexChar (hi / 16 % 16) ::
        hexChar (hi % 16) :: ('\\' :: 'u' :: (hex4 lo ++ r))) := rfl
  rw [step]
  have step2 : unescU (unescapeFuel fuel) (hexChar (hi / 4096 % 16) ::
      hexChar (hi / 256 % 16) :: hexChar (hi / 16 % 16) :: hexChar (hi % 16) ::
      ('\\' :: 'u' :: (hex4 lo ++ r))) =
      (hex4Val (hexChar (hi / 4096 % 16)) (hexChar (hi / 256 % 16))
        (hexChar (hi / 16 % 16)) (hexChar (hi % 16))).bind (fun w =>
        if 0xd800 ≤ w ∧ w < 0xdc00 then
          unescSurrogate (unescapeFuel fuel) w ('\\' :: 'u' :: (hex4 lo ++ r))
        else if 0xdc00 ≤ w ∧ w < 0xe000 then none
        else (unescapeFuel fuel ('\\' :: 'u' :: (hex4 lo ++ r))).map
          (Char.ofNat w :: ·)) := rfl
  rw [step2, hex4Val_hexChar hi]
  simp only [Option.some_bind]
  have hvhi : 4096 * (hi / 4096 % 16) + 256 * (hi / 256 % 16) +
      16 * (hi / 16 % 16) + hi % 16 = hi := by omega
  rw [hvhi, if_pos hhi]
  have step3 : unescSurrogate (unescapeFuel fuel) hi
      ('\\' :: 'u' :: (hex4 lo ++ r)) =
      (hex4Val (hexChar (lo / 4096 % 16)) (hexChar (lo / 256 % 16))
        (hexChar (lo / 16 % 16)) (hexChar (lo % 16))).bind (fun w =>
        if 0xdc00 ≤ w ∧ w < 0xe000 then
          (unescapeFuel fuel r).map
            (Char.ofNat (0x10000 + (hi - 0xd800) * 0x400 + (w - 0xdc00)) :: ·)
        else none) := rfl
  rw [step3, hex4Val_hexChar lo]
  simp only [Option.some_bind]
  have hvlo : 4096 * (lo / 4096 % 16) + 256 * (lo / 256 % 16) +
      16 * (lo / 16 % 16) + lo % 16 = lo := by omega
  rw [hvlo, if_pos hlo]

theorem unescapeFuel_escChar (fuel : Nat) (c : Char) (r : List Char) :
    unescapeFuel (fuel + 1) (escChar c ++ r) =
      (unescapeFuel fuel r).map (c :: ·) := by
  by_cases h1 : c = '"'
  · subst h1; rfl
  by_cases h2 : c = '\\'
  · subst h2; rfl
  by_cases h8 : c.toNat = 8
  · have hc : c = Char.ofNat 8 := by rw [← Char.ofNat_toNat c, h8]
    subst hc; rfl
  by_cases h9 : c.toNat = 9
  · have hc : c = Char.ofNat 9 := by rw [← Char.ofNat_toNat c, h9]
    subst hc; rfl
  by_cases h10 : c.toNat = 10
  · have hc : c = Char.ofNat 10 := by rw [← Char.ofNat_toNat c, h10]
    subst hc; rfl
  by_cases h12 : c.toNat = 12
  · have hc : c = Char.ofNat 12 := by rw [← Char.ofNat_toNat c, h12]
    subst hc; rfl
  by_cases h13 : c.toNat = 13
  · have hc : c = Char.ofNat 13 := by rw [← Char.ofNat_toNat c, h13]
    subst hc; rfl
  by_cases hesc : c.toNat < 0x20 ∨ 0x7e < c.toNat
  · have hval := char_toNat_valid c
    by_cases hbmp : c.toNat < 0x10000
    · have he : escChar c = '\\' :: 'u' :: hex4 c.toNat := by
        unfold escChar
        rw [if_neg h1, if_neg h2, if_neg h8, if_neg h9, if_neg h10,
          if_neg h12, if_neg h13, if_pos hesc, if_pos hbmp]
      rw [he]
      have hsh : ('\\' :: 'u' :: hex4 c.toNat) ++ r =
          '\\' :: 'u' :: (hex4 c.toNat ++ r) := by simp
      rw [hsh, unescapeFuel_u_bmp fuel c.toNat hbmp (by omega) (by omega) r,
        Char.ofNat_toNat]
    · have he : escChar c =
          '\\' :: 'u' :: hex4 (0xd800 + (c.toNat - 0x10000) / 0x400) ++
          '\\' :: 'u' :: hex4 (0xdc00 + (c.toNat - 0x10000) % 0x400) := by
        unfold escChar
        rw [if_neg h1, if_neg h2, if_neg h8, if_neg h9, if_neg h10,
          if_neg h12, if_neg h13, if_pos hesc, if_neg hbmp]
      rw [he]
      have hq : (c.toNat - 0x10000) / 0x400 < 0x400 := by omega
      have hrem : (c.toNat - 0x10000) % 0x400 < 0x400 :=
        Nat.mod_lt _ (by norm_num)
      have hsh : ('\\' :: 'u' :: hex4 (0xd800 + (c.toNat - 0x10000) / 0x400) ++
          '\\' :: 'u' :: hex4 (0xdc00 + (c.toNat - 0x10000) % 0x400)) ++ r =
          '\\' :: 'u' :: (hex4 (0xd800 + (c.toNat - 0x10000) / 0x400) ++
            ('\\' :: 'u' :: (hex4 (0xdc00 + (c.toNat - 0x10000) % 0x400) ++ r))) := by
        simp
      rw [hsh, unescapeFuel_u_surrogates fuel _ _ ⟨by omega, by omega⟩
        ⟨by omega, by omega⟩ r]
      have hchar : 0x10000 +
          (0xd800 + (c.toNat - 0x10000) / 0x400 - 0xd800) * 0x400 +
          (0xdc00 + (c.toNat - 0x10000) % 0x400 - 0xdc00) = c.toNat := by omega
      rw [hchar, Char.ofNat_toNat]
  · have he : escChar c = [c] := by
      unfold escChar
      rw [if_neg h1, if_neg h2, if_neg h8, if_neg h9, if_neg h10,
        if_neg h12, if_neg h13, if_neg hesc]
    rw [he]
    have step : unescapeFuel (fuel + 1) ([c] ++ r) =
        if c ≠ '\\' then (unescapeFuel fuel r).map (c :: ·)
        else unescEscape (unescapeFuel fuel) r := rfl
    rw [step, if_pos h2]

theorem unescapeFuel_escapeChars (l : List Char) :
    ∀ fuel, l.length ≤ fuel → unescapeFuel fuel (escapeChars l) = some l := by
  induction l with
  | nil => intro fuel _; cases fuel <;> rfl
  | cons c rest ih =>
    intro fuel hfuel
    cases fuel with
    | zero => simp at hfuel
    | succ fuel =>
      have he : escapeChars (c :: rest) = escChar c ++ escapeChars rest := by
        simp [escapeChars]
      rw [he, unescapeFuel_escChar fuel c (escapeChars rest),
        ih fuel (by simp at hfuel; omega)]
      rfl

theorem length_le_length_escapeChars (l : List Char) :
    l.length ≤ (escapeChars l).length := by
  induction l with
  | nil => simp [escapeChars]
  | cons c rest ih =>
    have he : escapeChars (c :: rest) = escChar c ++ escapeChars rest := by
      simp [escapeChars]
    have hne : 1 ≤ (escChar c).length := by
      unfold escChar
      split
      · simp
      split
      · simp
      split
      · simp
      split
      · simp
      split
      · simp
      split
      · simp
      split
      · simp
      split
      · split <;> simp [hex4]
      · simp
    rw [he]
    simp only [List.length_append, List.length_cons]
    omega

theorem escapeChars_injective {l1 l2 : List Char}
    (h : escapeChars l1 = escapeChars l2) : l1 = l2 := by
  have hf1 : l1.length ≤ (escapeChars l1).length :=
    length_le_length_escapeChars l1
  have hf2 : l2.length ≤ (escapeChars l1).length := by
    rw [h]
    exact length_le_length_escapeChars l2
  have h1 := unescapeFuel_escapeChars l1 (escapeChars l1).length hf1
  have h2 := unescapeFuel_escapeChars l2 (escapeChars l1).length hf2
  set F := (escapeChars l1).length with hF
  rw [h] at h1
  rw [h1] at h2
  exact Option.some_injective _ h2

theorem encStr_injective {s1 s2 : String} (h : encStr s1 = encStr s2) :
    s1 = s2 := by
  unfold encStr at h
  have h' : escapeChars s1.data ++ ['"'] = escapeChars s2.data ++ ['"'] := by
    injection h
  have h'' : escapeChars s1.data = escapeChars s2.data :=
    List.append_cancel_right h'
  have := escapeChars_injective h''
  cases s1
  cases s2
  exact congrArg String.mk this

theorem payloadString_injective_body (b b' did : String) (ts : Int)
    (h : payloadString ⟨b, ts, did⟩ = payloadString ⟨b', ts, did⟩) : b = b' := by
  unfold payloadString at h
  have hdata := congrArg String.data h
  simp only [List.append_assoc] at hdata
  have h1 := List.append_cancel_left hdata
  exact encStr_injective (List.append_cancel_right h1)

/-! ### Claim C6: DID request signature round-trip -/

/-- C6 (counterexample): "verify_signature over any different body returns
false" fails across body types: a bytes body and a str body with the same
content canonicalize to the same payload, so a signature over one verifies
over the other although the bodies differ.  The concrete scheme used here
(`sign` the identity, `verify` message comparison) is correct and sound, so
this is a genuine instance of the claim's quantifier. -/
theorem c6_signature_counterexample :
    (Body.bytes "x" ≠ Body.str "x") ∧
    verify_signature (fun msg sig _ => sig == msg) 1000 (Body.str "x")
      (sign_request (fun m => m) (Body.bytes "x") "did:key:test" 1000).signature
      "did:key:test" 1000 "pk" 300 = true := by
  constructor
  · decide
  · decide

/-- C6 (amended): for any correct and sound signature scheme: (1) verifying
the headers produced by `sign_request` over the same body within
`max_age_seconds` of the current time succeeds; (2) verification over a body
whose *canonical body string* differs fails (bodies are canonicalized first:
dict → sorted-keys JSON, bytes → UTF-8 decode, so distinct bodies with equal
canonical strings verify true); (3) a timestamp farther than
`max_age_seconds` (default 300) from the current time — e.g. 600 seconds in
the past — is rejected before any cryptographic check: the result is `false`
for *every* verifier. -/
theorem c6_signature_verification
    (sign : String → String) (verify : String → String → String → Bool)
    (pk did : String) (now ts maxAge : Int) (body body2 : Body)
    (hcorrect : ∀ m, verify m (sign m) pk = true)
    (hsound : ∀ m m2, m2 ≠ m → verify m2 (sign m) pk = false) :
    (|now - ts| ≤ maxAge →
      verify_signature verify now body
        (sign_request sign body did ts).signature did ts pk maxAge = true) ∧
    (bodyStr body2 ≠ bodyStr body →
      verify_signature verify now body2
        (sign_request sign body did ts).signature did ts pk maxAge = false) ∧
    (∀ (verifyAny : String → String → String → Bool) (ts2 : Int),
      maxAge < |now - ts2| →
      verify_signature verifyAny now body
        (sign_request sign body did ts).signature did ts2 pk maxAge = false) := by
  refine ⟨?_, ?_, ?_⟩
  · intro hfresh
    unfold verify_signature sign_request
    rw [if_neg (not_lt.mpr hfresh)]
    exact hcorrect _
  · intro hbody
    unfold verify_signature sign_request
    by_cases hstale : maxAge < |now - ts|
    · rw [if_pos hstale]
    · rw [if_neg hstale]
      apply hsound
      intro hc
      exact hbody (payloadString_injective_body _ _ did ts hc)
  · intro verifyAny ts2 hstale
    unfold verify_signature
    rw [if_pos hstale]

/-- C6 (witness): with the identity scheme, a concrete fresh signature
verifies, a different body string fails, and a timestamp 600 seconds in the
past (max age 300) fails. -/
theorem c6_signature_verification_witness :
    verify_signature (fun msg sig _ => sig == msg) 1000 (Body.str "b")
      (sign_request (fun m => m) (Body.str "b") "did:key:test" 900).signature
      "did:key:test" 900 "pk" 300 = true ∧
    verify_signature (fun msg sig _ => sig == msg) 1000 (Body.str "c")
      (sign_request (fun m => m) (Body.str "b") "did:key:test" 900).signature
      "did:key:test" 900 "pk" 300 = false ∧
    verify_signature (fun msg sig _ => sig == msg) 1000 (Body.str "b")
      (sign_request (fun m => m) (Body.str "b") "did:key:test" 400).signature
      "did:key:test" 400 "pk" 300 = false :=
  have hcorrect : ∀ m : String,
      (fun (msg sig : String) (_ : String) => sig == msg) m ((fun m => m) m) "pk" = true := by
    intro m
    simp
  have hsound : ∀ m m2 : String, m2 ≠ m →
      (fun (msg sig : String) (_ : String) => sig == msg) m2 ((fun m => m) m) "pk" = false := by
    intro m m2 h
    simpa using fun hc => h hc.symm
  ⟨(c6_signature_verification (fun m => m) (fun msg sig _ => sig == msg)
      "pk" "did:key:test" 1000 900 300 (Body.str "b") (Body.str "b")
      hcorrect hsound).1 (by decide),
   (c6_signature_verification (fun m => m) (fun msg sig _ => sig == msg)
      "pk" "did:key:test" 1000 900 300 (Body.str "b") (Body.str "c")
      hcorrect hsound).2.1 (by decide),
   (c6_signature_verification (fun m => m) (fun msg sig _ => sig == msg)
      "pk" "did:key:test" 1000 400 300 (Body.str "b") (Body.str "b")
      hcorrect hsound).2.2 (fun msg sig _ => sig == msg) 400 (by decide)⟩

/-! ### Claim C8: SSE / gRPC streaming equivalence -/

theorem task_event_to_proto_tuple (e : SSEEvent)
    (h : eventWellFormed e = true) :
    ∃ p, task_event_to_proto e = some p ∧
      protoEventTuple p = sseEventTuple e := by
  simp only [eventWellFormed, Bool.or_eq_true, Bool.and_eq_true, beq_iff_eq,
    Option.isSome_iff_exists, Option.isNone_iff_eq_none] at h
  rcases h with ⟨⟨hkind, st, hst⟩, hart⟩ | ⟨⟨hkind, a, hart⟩, hst⟩
  · refine ⟨ProtoTaskEvent.status_update
      (match e.error with
       | some err =>
         { task_id := uuidToStr e.task_id
           context_id := uuidToStr e.context_id
           final := e.final.getD false
           status := task_status_to_proto st
           metadata := setKey (e.metadata.getD []) "error" err }
       | none =>
         { task_id := uuidToStr e.task_id
           context_id := uuidToStr e.context_id
           final := e.final.getD false
           status := task_status_to_proto st
           metadata := e.metadata.getD [] }), ?_, ?_⟩
    · unfold task_event_to_proto
      rw [if_pos hkind]
      cases herr : e.error with
      | none =>
        simp only [task_status_update_event_to_proto, hst, Option.map_some']
      | some err =>
        simp only [task_status_update_event_to_proto, hst, Option.map_some',
          Option.getD_some]
    · cases herr : e.error with
      | none =>
        simp [protoEventTuple, sseEventTuple, hkind, hst, hart,
          task_status_to_proto]
      | some err =>
        simp [protoEventTuple, sseEventTuple, hkind, hst, hart,
          task_status_to_proto]
  · have hkind2 : e.kind ≠ "status-update" := by
      rw [hkind]
      decide
    refine ⟨ProtoTaskEvent.artifact_update
      { task_id := uuidToStr e.task_id
        context_id := uuidToStr e.context_id
        append := e.append.getD false
        last_chunk := e.last_chunk.getD false
        artifact := artifact_to_proto a
        metadata := e.metadata.getD [] }, ?_, ?_⟩
    · unfold task_event_to_proto
      rw [if_neg hkind2, if_pos hkind]
      simp only [task_artifact_update_event_to_proto, hart, Option.map_some']
    · simp [protoEventTuple, sseEventTuple, hkind, hst, hart,
        artifact_to_proto]

theorem mapM_option_append {α β : Type} (f : α → Option β) (l1 : List α)
    (l2 : List α) (ps1 ps2 : List β) (h1 : l1.mapM f = some ps1)
    (h2 : l2.mapM f = some ps2) : (l1 ++ l2).mapM f = some (ps1 ++ ps2) := by
  induction l1 generalizing ps1 with
  | nil =>
    simp only [List.mapM_nil] at h1
    cases h1
    simpa using h2
  | cons x l1 ih =>
    rw [List.mapM_cons] at h1
    cases hx : f x with
    | none => rw [hx] at h1; simp at h1
    | some y =>
      rw [hx] at h1
      cases hl : l1.mapM f with
      | none => rw [hl] at h1; simp at h1
      | some ys =>
        rw [hl] at h1
        simp only [Option.some_bind, Option.bind_some,
          Option.bind_eq_bind] at h1
        have hy : ps1 = y :: ys := by
          cases h1
          rfl
        subst hy
        rw [List.cons_append, List.mapM_cons, hx, ih ys hl]
        simp

theorem mapM_task_event_to_proto (evs : List SSEEvent)
    (h : ∀ e ∈ evs, eventWellFormed e = true) :
    ∃ ps, evs.mapM task_event_to_proto = some ps ∧
      ps.map protoEventTuple = evs.map sseEventTuple := by
  induction evs with
  | nil => exact ⟨[], rfl, rfl⟩
  | cons e evs ih =>
    obtain ⟨p, hp, hpt⟩ :=
      task_event_to_proto_tuple e (h e (List.mem_cons_self e evs))
    obtain ⟨ps, hps, hpst⟩ := ih (fun x hx => h x (List.mem_cons_of_mem _ hx))
    refine ⟨p :: ps, ?_, ?_⟩
    · rw [List.mapM_cons, hp, hps]
      rfl
    · simp [hpt, hpst]

/-- C8: for the same underlying event stream (the SSE chunk sequence and a
`json.loads` oracle), the gRPC `StreamMessage` surface yields exactly the
per-event protobuf conversion of the JSON-RPC SSE event sequence — no
events added, dropped or reordered — and both surfaces observe the same
sequence of `(kind, state, artifact_id, last_chunk)` tuples. -/
theorem c8_stream_surfaces_equivalent
    (loads : List Char → Option SSEEvent) (chunks : List (List Char))
    (evs : List SSEEvent)
    (hseq : sseEventSequence loads chunks = some evs)
    (hwf : ∀ e ∈ evs, eventWellFormed e = true) :
    ∃ ps, streamMessageEvents loads chunks = some ps ∧
      evs.mapM task_event_to_proto = some ps ∧
      ps.map protoEventTuple = evs.map sseEventTuple := by
  induction chunks generalizing evs with
  | nil =>
    unfold sseEventSequence at hseq
    simp only [List.mapM_nil, Option.map_some'] at hseq
    cases hseq
    exact ⟨[], rfl, rfl, rfl⟩
  | cons chunk rest ih =>
    unfold sseEventSequence at hseq
    rw [List.mapM_cons] at hseq
    cases hc : parse_sse_events loads chunk with
    | none => rw [hc] at hseq; simp at hseq
    | some evs1 =>
      rw [hc] at hseq
      cases hr : rest.mapM (parse_sse_events loads) with
      | none => rw [hr] at hseq; simp at hseq
      | some evss =>
        rw [hr] at hseq
        simp only [Option.some_bind, Option.bind_some, Option.map_some',
          Option.bind_eq_bind, List.flatten] at hseq
        have hseq' : evs = evs1 ++ evss.flatten := by
          cases hseq
          rfl
        subst hseq'
        have hwf1 : ∀ e ∈ evs1, eventWellFormed e = true :=
          fun e he => hwf e (List.mem_append_left _ he)
        have hwf2 : ∀ e ∈ evss.flatten, eventWellFormed e = true :=
          fun e he => hwf e (List.mem_append_right _ he)
        obtain ⟨ps1, hps1, hps1t⟩ := mapM_task_event_to_proto evs1 hwf1
        have hseqrest : sseEventSequence loads rest = some evss.flatten := by
          unfold sseEventSequence
          rw [hr]
          rfl
        obtain ⟨ps2, hps2, hps2m, hps2t⟩ := ih evss.flatten hseqrest hwf2
        refine ⟨ps1 ++ ps2, ?_, ?_, ?_⟩
        · unfold streamMessageEvents
          rw [hc]
          simp only [Option.some_bind, Option.bind_eq_bind, Option.bind_some]
          rw [hps1]
          simp only [Option.some_bind, Option.bind_eq_bind, Option.bind_some]
          rw [hps2]
          simp only [Option.some_bind, Option.bind_eq_bind, Option.bind_some]
          rfl
        · exact mapM_option_append _ _ _ _ _ hps1 hps2m
        · simp [hps1t, hps2t]

/-- C8 witness: on a concrete stream of one chunk `"data: x\n"` whose
payload parses to a well-formed status-update event, `StreamMessage`
yields exactly that event's protobuf conversion and both surfaces observe
the same `(kind, state, artifact_id, last_chunk)` tuple sequence. -/
theorem c8_stream_surfaces_equivalent_witness :
    streamMessageEvents
        (fun _ => some ⟨"status-update", none, none, none,
          some ⟨"working", "t0", none⟩, none, none, none, none, none⟩)
        ["data: x\n".data] =
      some [ProtoTaskEvent.status_update
        ⟨"", "", false, ⟨"working", "t0", none⟩, []⟩] ∧
    List.mapM task_event_to_proto
        [(⟨"status-update", none, none, none,
          some ⟨"working", "t0", none⟩, none, none, none, none, none⟩ :
            SSEEvent)] =
      some [ProtoTaskEvent.status_update
        ⟨"", "", false, ⟨"working", "t0", none⟩, []⟩] ∧
    [ProtoTaskEvent.status_update
        ⟨"", "", false, ⟨"working", "t0", none⟩, []⟩].map protoEventTuple =
      [(⟨"status-update", none, none, none,
        some ⟨"working", "t0", none⟩, none, none, none, none, none⟩ :
          SSEEvent)].map sseEventTuple := by
  obtain ⟨ps, h1, h2, h3⟩ :=
    c8_stream_surfaces_equivalent
      (fun _ => some ⟨"status-update", none, none, none,
        some ⟨"working", "t0", none⟩, none, none, none, none, none⟩)
      ["data: x\n".data]
      [⟨"status-update", none, none, none,
        some ⟨"working", "t0", none⟩, none, none, none, none, none⟩]
      (by decide) (by decide)
  have hps : ps = [ProtoTaskEvent.status_update
      ⟨"", "", false, ⟨"working", "t0", none⟩, []⟩] := by
    have he : List.mapM task_event_to_proto
        [(⟨"status-update", none, none, none,
          some ⟨"working", "t0", none⟩, none, none, none, none, none⟩ :
            SSEEvent)] =
        some [ProtoTaskEvent.status_update
          ⟨"", "", false, ⟨"working", "t0", none⟩, []⟩] := by decide
    exact Option.some.inj (h2.symm.trans he)
  subst hps
  exact ⟨h1, h2, h3⟩

/-! ### Claim C1: JSON-RPC error → gRPC status mapping -/

/-- C1 (counterexample): an internal JSON-RPC error (code `-32000`) is mapped
to `INVALID_ARGUMENT` by `_map_jsonrpc_error_to_status`, not to `INTERNAL` as
the claim states: the mapping has no `INTERNAL` branch at all. -/
theorem c1_internal_error_not_mapped_to_INTERNAL :
    mapJsonRpcErrorToStatus (some (-32000)) "internal error" =
      StatusCode.INVALID_ARGUMENT ∧
    StatusCode.INVALID_ARGUMENT ≠ StatusCode.INTERNAL := by
  constructor
  · decide
  · decide

/-- C1 (amended): the mapping checks in order — a message containing
"identifier mismatch" or code `-32005` gives `FAILED_PRECONDITION`; then code
`-32001` or a message containing "not found" gives `NOT_FOUND`; every other
error, *including* internal errors (code `-32000`), gives `INVALID_ARGUMENT`. -/
theorem c1_error_mapping (code : Option Int) (message : String) :
    (containsSub (strLower message) "identifier mismatch" = true →
      mapJsonRpcErrorToStatus code message = .FAILED_PRECONDITION) ∧
    (code = some (-32005) →
      mapJsonRpcErrorToStatus code message = .FAILED_PRECONDITION) ∧
    (containsSub (strLower message) "identifier mismatch" = false →
      code ≠ some (-32005) →
      (code = some (-32001) ∨ containsSub (strLower message) "not found" = true) →
      mapJsonRpcErrorToStatus code message = .NOT_FOUND) ∧
    (containsSub (strLower message) "identifier mismatch" = false →
      code ≠ some (-32005) → code ≠ some (-32001) →
      containsSub (strLower message) "not found" = false →
      mapJsonRpcErrorToStatus code message = .INVALID_ARGUMENT) := by
  unfold mapJsonRpcErrorToStatus
  refine ⟨fun h1 => by simp [h1], fun h2 => ?_, fun h1 h2 h3 => ?_, fun h1 h2 h3 h4 => ?_⟩
  · by_cases h1 : containsSub (strLower message) "identifier mismatch" <;> simp [h1, h2]
  · rcases h3 with h3 | h3 <;> simp [h1, h2, h3]
  · simp [h1, h2, h3, h4]

/-- C1 (witness for the amended mapping): concrete instances of each branch. -/
theorem c1_error_mapping_witness :
    mapJsonRpcErrorToStatus (some (-32005)) "x" = .FAILED_PRECONDITION ∧
    mapJsonRpcErrorToStatus none "Task Not Found" = .NOT_FOUND :=
  ⟨(c1_error_mapping (some (-32005)) "x").2.1 rfl,
   (c1_error_mapping none "Task Not Found").2.2.1 (by decide) (by decide)
     (Or.inr (by decide))⟩

/-! ### Claim C2: missing bearer token aborts with UNAUTHENTICATED -/

/-- C2: when the invocation metadata carries no well-formed bearer token under
`authorization` (`extractBearerToken` yields `none`: entry absent, scheme not
case-insensitively `bearer`, or empty token after stripping), the interceptor
replaces the handler with one aborting `UNAUTHENTICATED` /
"Missing authorization token"; the outcome is the same for *every* validator,
which expresses that the token validator is never invoked. -/
theorem c2_missing_token_aborts {α β : Type}
    (v₁ : String → Except Unit α) (v₂ : String → Except Unit β)
    (metadata : List (String × String))
    (hno : extractBearerToken (metadataValue metadata "authorization") = none) :
    interceptService v₁ metadata =
      .abort .UNAUTHENTICATED "Missing authorization token" ∧
    interceptService v₁ metadata = interceptService v₂ metadata := by
  unfold interceptService
  rw [hno]
  exact ⟨rfl, rfl⟩

/-- C2 (witness): a `Basic` scheme header is not a bearer token and aborts. -/
theorem c2_missing_token_aborts_witness :
    interceptService (fun _ : String => (Except.error () : Except Unit Unit))
        [("authorization", "Basic abc")] =
      .abort .UNAUTHENTICATED "Missing authorization token" :=
  (c2_missing_token_aborts
    (fun _ : String => (Except.error () : Except Unit Unit))
    (fun _ : String => (Except.error () : Except Unit Unit))
    [("authorization", "Basic abc")] (by decide)).1

/-! ### Claim C3: bearer token validation outcome -/

/-- C3: with a bearer token present, if introspection raises or reports
`active = false` (which makes `validate_token` raise), the interceptor aborts
`UNAUTHENTICATED` / "Invalid authorization token"; if introspection reports an
active token, the original handler is returned unchanged (`.proceed`). -/
theorem c3_token_validation (introspect : String → Except Unit Introspection)
    (metadata : List (String × String)) (token : String)
    (htok : extractBearerToken (metadataValue metadata "authorization") =
      some token) :
    ((introspect token = .error () ∨
        (∃ r, introspect token = .ok r ∧ r.active.getD false = false)) →
      interceptService (hydraValidateToken introspect) metadata =
        .abort .UNAUTHENTICATED "Invalid authorization token") ∧
    (∀ r, introspect token = .ok r → r.active.getD false = true →
      interceptService (hydraValidateToken introspect) metadata = .proceed) := by
  have keyErr : ∀ e, hydraValidateToken introspect token = .error e →
      interceptService (hydraValidateToken introspect) metadata =
        .abort .UNAUTHENTICATED "Invalid authorization token" := by
    intro e he
    unfold interceptService
    simp only [htok, he]
  have keyOk : ∀ r, hydraValidateToken introspect token = .ok r →
      interceptService (hydraValidateToken introspect) metadata = .proceed := by
    intro r hr
    unfold interceptService
    simp only [htok, hr]
  constructor
  · rintro (hfail | ⟨r, hr, hactive⟩)
    · exact keyErr () (by unfold hydraValidateToken; rw [hfail]; rfl)
    · refine keyErr () ?_
      unfold hydraValidateToken
      rw [hr]
      show (if r.active.getD false = true then
        (pure r : Except Unit Introspection) else throw ()) = _
      rw [hactive]
      rfl
  · intro r hr hactive
    refine keyOk r ?_
    unfold hydraValidateToken
    rw [hr]
    show (if r.active.getD false = true then
      (pure r : Except Unit Introspection) else throw ()) = _
    rw [hactive]
    rfl

/-- C3 (witness): an inactive introspection result aborts the call. -/
theorem c3_token_validation_witness :
    interceptService
        (hydraValidateToken (fun _ => Except.ok ⟨some false⟩))
        [("authorization", "Bearer tok")] =
      .abort .UNAUTHENTICATED "Invalid authorization token" :=
  (c3_token_validation (fun _ => Except.ok ⟨some false⟩)
      [("authorization", "Bearer tok")] "tok" (by decide)).1
    (Or.inr ⟨⟨some false⟩, rfl, rfl⟩)

/-! ### Claim C7: schema name derivation -/

/-- C7 (counterexample): distinct DIDs need not yield distinct schema names —
the non-alphanumeric → `_` replacement conflates `a-b` and `a.b`.  The digest
parameter is irrelevant here (no truncation happens), so a constant digest is
used to obtain a closed statement. -/
theorem c7_distinct_dids_can_collide :
    ("a-b" : String) ≠ "a.b" ∧
    sanitize_did_for_schema (fun _ => "") "a-b" =
      sanitize_did_for_schema (fun _ => "") "a.b" := by
  constructor
  · decide
  · decide

/-- C7 (amended): the derivation (lowercase; non-alphanumeric → `_`;
`schema_` prefix when leading digit; 54-byte truncation + `_` + 8 digest
characters when over 63 bytes) is deterministic and never exceeds 63
characters (= bytes: every character of the name is ASCII), but it is *not*
injective on distinct DIDs.  The concrete conjuncts reproduce the unit tests
of `test_schema_manager.py`, validating the spec-modelled definition. -/
theorem c7_schema_name_derivation (hash8 : String → String) (did : String) :
    (sanitize_did_for_schema hash8 did).length ≤ 63 ∧
    sanitize_did_for_schema (fun _ => "0123abcd9999") "did:bindu:alice:agent1:abc123" =
      "did_bindu_alice_agent1_abc123" ∧
    sanitize_did_for_schema (fun _ => "0123abcd9999") "DID:Bindu:ALICE" =
      "did_bindu_alice" ∧
    sanitize_did_for_schema (fun _ => "0123abcd9999") "123:alice" =
      "schema_123_alice" := by
  refine ⟨?_, by decide, by decide, by decide⟩
  unfold sanitize_did_for_schema
  by_cases h : 63 < (sanitizeNamed did).length
  · rw [if_pos h]
    show ((sanitizeNamed did).take 54 ++ '_' :: (hash8 ⟨sanitizeNamed did⟩).data.take 8).length ≤ 63
    have h1 : ((sanitizeNamed did).take 54).length ≤ 54 :=
      List.length_take_le 54 (sanitizeNamed did)
    have h2 : ((hash8 ⟨sanitizeNamed did⟩).data.take 8).length ≤ 8 :=
      List.length_take_le 8 (hash8 ⟨sanitizeNamed did⟩).data
    simp only [List.length_append, List.length_cons]
    omega
  · rw [if_neg h]
    show (sanitizeNamed did).length ≤ 63
    omega

/-! ### Claim C9: textual id correspondence -/

/-- C9: `uuid_to_str` renders the canonical 36-character form and
`str_to_uuid` parses it back to the same UUID; `uuid_to_str(None) = ""`; and
an empty or unparseable id string decodes (via the
`str_to_uuid(x) or UUID(int=0)` idiom of `proto_to_message` /
`proto_to_task`) to the zero-valued id. -/
theorem c9_uuid_id_correspondence :
    (∀ u : PyUUID, u.val < 2 ^ 128 →
      (uuidToStr (some u)).length = 36 ∧
      strToUuid (uuidToStr (some u)) = some u) ∧
    uuidToStr none = "" ∧
    decodeId "" = uuidZero ∧
    (∀ s : String, strToUuid s = none → decodeId s = uuidZero) := by
  refine ⟨fun u hu => ⟨?_, strToUuid_uuidToStr u hu⟩, rfl, by decide, ?_⟩
  · show (uuidCanonicalChars u.val).length = 36
    have h32 := length_toHexFixed 32 u.val
    unfold uuidCanonicalChars uuidGroups
    simp [List.length_append, List.length_take, List.length_drop, h32]
  · intro s hs
    unfold decodeId
    rw [hs]
    rfl

/-- C9 (witness): round-trip of a concrete UUID and decoding of a concrete
unparseable id. -/
theorem c9_uuid_id_correspondence_witness :
    strToUuid (uuidToStr (some ⟨81985529216486895⟩)) = some ⟨81985529216486895⟩ ∧
    decodeId "not-a-uuid" = uuidZero :=
  ⟨(c9_uuid_id_correspondence.1 ⟨81985529216486895⟩ (by norm_num)).2,
   c9_uuid_id_correspondence.2.2.2 "not-a-uuid" (by decide)⟩

/-! ### Claim C4: Part round-trip -/

/-- C4 (counterexample): the round-trip is *not* the identity for every
part.  A file part whose `file` dict carries `bytes` (and no `uri`) decodes
with the bytes value under `uri` and with `mimeType`/`name` filled in:
`part_to_proto` writes `file.get("uri") or file.get("bytes", "")` into the
single `file_id` field and `proto_to_part` always decodes it as `uri`. -/
theorem c4_part_roundtrip_counterexample :
    proto_to_part (part_to_proto
        (Part.file "" ⟨none, some "QUJDRA==", none, none⟩ none)) ≠
      some (Part.file "" ⟨none, some "QUJDRA==", none, none⟩ none) := by
  decide

/-- C4 (amended): the round-trip is the identity on canonical parts: text
parts whose present metadata/embeddings are non-empty; file parts with
`text = ""`, a present non-empty `uri`, no `bytes`, present `mimeType` and
`name`, and present metadata non-empty; data parts with `text = ""` and
present metadata non-empty.  Outside this domain the decoders conflate
states (file `bytes` re-encodes under `uri`, empty metadata/embeddings are
dropped, absent file `mimeType`/`name` come back as `""`). -/
theorem c4_part_roundtrip (p : Part) (h : partCanonical p = true) :
    proto_to_part (part_to_proto p) = some p :=
  proto_to_part_part_to_proto p h

/-- C4 (witness): a concrete canonical part of each variant round-trips. -/
theorem c4_part_roundtrip_witness :
    proto_to_part (part_to_proto
        (Part.text "hello" (some [("lang", "en")]) none)) =
      some (Part.text "hello" (some [("lang", "en")]) none) ∧
    proto_to_part (part_to_proto
        (Part.file "" ⟨some "file:a", none, some "text/plain", some "a.txt"⟩
          none)) =
      some (Part.file "" ⟨some "file:a", none, some "text/plain", some "a.txt"⟩
        none) ∧
    proto_to_part (part_to_proto
        (Part.data "" [("mimeType", .str "application/json"),
          ("value", .num 1)] none)) =
      some (Part.data "" [("mimeType", .str "application/json"),
        ("value", .num 1)] none) :=
  ⟨c4_part_roundtrip _ (by decide), c4_part_roundtrip _ (by decide),
   c4_part_roundtrip _ (by decide)⟩

/-! ### Claim C5: Task round-trip -/

/-- C5 (counterexample): the round-trip is *not* the identity for every
task.  A task whose `metadata` is present but empty (`{}`) decodes without
a `metadata` key: `task_to_proto` only writes a truthy metadata dict and
`proto_to_task` only sets the key for a non-empty proto map. -/
theorem c5_task_roundtrip_counterexample :
    proto_to_task "2024-01-01T00:00:00+00:00" (task_to_proto
        { id := ⟨1⟩
          context_id := ⟨2⟩
          kind := "task"
          status := some { state := "working", timestamp := "2023", message := none }
          artifacts := some []
          history := some []
          metadata := some [] }) ≠
      some
        { id := ⟨1⟩
          context_id := ⟨2⟩
          kind := "task"
          status := some { state := "working", timestamp := "2023", message := none }
          artifacts := some []
          history := some []
          metadata := some [] } := by
  decide

/-- C5 (amended): the round-trip is the identity on canonical tasks —
bounded ids, non-empty `kind`, present status with non-empty
`state`/`timestamp` (and canonical message, if any), present histories and
artifact lists of canonical elements, and present metadata non-empty.
Identity implies in particular that `id`, `context_id`, `kind`, `status`
and `metadata` are preserved and that `history` and `artifacts` keep their
length and order.  Present-but-empty task metadata is dropped (the
counterexample), which is the one conflation the claim's universal
statement runs into. -/
theorem c5_task_roundtrip (now : String) (t : Task)
    (h : taskCanonical t = true) :
    proto_to_task now (task_to_proto t) = some t :=
  proto_to_task_roundtrip now t h

/-- C5 (witness): a concrete canonical task with one artifact and one
history message round-trips. -/
theorem c5_task_roundtrip_witness :
    proto_to_task "2024-01-01T00:00:00+00:00" (task_to_proto
        { id := ⟨1⟩
          context_id := ⟨2⟩
          kind := "task"
          status := some { state := "working", timestamp := "2023", message := none }
          artifacts := some [{ artifact_id := ⟨3⟩, name := some "art",
                               parts := some [Part.text "ok" none none],
                               metadata := some [("x", "y")] }]
          history := some [{ message_id := ⟨4⟩, context_id := ⟨2⟩,
                             task_id := ⟨1⟩, reference_task_ids := none,
                             kind := "message", role := "user",
                             metadata := none,
                             parts := some [Part.text "hi" none none],
                             extensions := none }]
          metadata := some [("test", "val")] }) =
      some
        { id := ⟨1⟩
          context_id := ⟨2⟩
          kind := "task"
          status := some { state := "working", timestamp := "2023", message := none }
          artifacts := some [{ artifact_id := ⟨3⟩, name := some "art",
                               parts := some [Part.text "ok" none none],
                               metadata := some [("x", "y")] }]
          history := some [{ message_id := ⟨4⟩, context_id := ⟨2⟩,
                             task_id := ⟨1⟩, reference_task_ids := none,
                             kind := "message", role := "user",
                             metadata := none,
                             parts := some [Part.text "hi" none none],
                             extensions := none }]
          metadata := some [("test", "val")] } :=
  c5_task_roundtrip "2024-01-01T00:00:00+00:00" _ (by decide)

/-! ### Claim C10: long_running is not preserved -/

/-- C10: round-tripping a `TaskPushNotificationConfig` does not preserve
`long_running = False`: the decoder sets the key only when the proto bool is
truthy, so explicit `False` and absence both decode to an absent key. -/
theorem c10_long_running_conflated (c : TaskPushNotificationConfig)
    (h : c.long_running = some false ∨ c.long_running = none) :
    (proto_to_task_push_notification_config
        (task_push_notification_config_to_proto c)).long_running = none := by
  rcases h with h | h <;>
    simp [task_push_notification_config_to_proto,
      proto_to_task_push_notification_config, h]

/-- C10 (witness): a concrete config with explicit `long_running = False`
decodes without the key. -/
theorem c10_long_running_conflated_witness :
    (proto_to_task_push_notification_config
        (task_push_notification_config_to_proto
          { id := some ⟨5⟩
            push_notification_config :=
              { id := some ⟨6⟩, url := some "https://example.com/hook",
                token := some "secret", authentication := none }
            long_running := some false })).long_running = none :=
  c10_long_running_conflated _ (Or.inl rfl)

end Bindu
